import Mathlib

/-!
# neo-geo: the GeoJSON envelope, its typed decoders and the S2 conversions

A shallow embedding of `parser/geo-json.go` and `parser/s2.go`.

* `[]byte` input is a `Bytes`: the code points of the UTF-8 text it holds.
* A Go result pair `(value, error)` is a Lean pair whose second component is an
  `Option Error` (`none` is the nil error); a pointer result is an `Option`
  (`none` is the nil pointer).
* `encoding/json`, which every decoder calls, is embedded as far as the decoders use
  it, after the documented behaviour of `json.Unmarshal`: the syntax check of the whole
  input, then the store of each member of the object, in document order, into the field
  whose name its key equals up to case.
* The `s2` library is a collaborator: its constructors are kept as the calls that were
  made, and the two ways a call can abort the program (an index out of range, the
  documented panic of `PolygonFromLoops`) are the `panic` outcome of `Run`.
-/

namespace NeoGeo

/-! ## Input bytes and JSON values -/

/-- The contents of a Go byte slice holding UTF-8 text. -/
abbrev Bytes := List Char

/-- A float64 read from a JSON number: the sign, the decimal digits and the power of ten
of the literal. Its binary rounding is not computed; nothing below looks at the number,
only at where it is stored. -/
structure Float64 where
  neg : Bool
  digits : Nat
  exp10 : Int
deriving DecidableEq, Repr

/-- The zero value of float64. -/
def Float64.zero : Float64 := ⟨false, 0, 0⟩

/-- A JSON value as the decoder sees it after the syntax check. Every array element
keeps the exact text it was read from, which is what a `json.RawMessage` receives. -/
inductive JSON where
  | null
  | bool (b : Bool)
  | number (n : Float64)
  | string (s : String)
  | array (elems : List (Bytes × JSON))
  | object (members : List (String × JSON))

instance : Inhabited JSON := ⟨JSON.null⟩

/-! ## The syntax of JSON texts (the scanner of `encoding/json`) -/

/-- The four white-space characters of JSON. -/
def isSpace (c : Char) : Bool :=
  c = ' ' || c = '\t' || c = '\r' || c = '\n'

/-- Drops leading white space. -/
def skipSpace : Bytes → Bytes
  | [] => []
  | c :: cs => if isSpace c then skipSpace cs else c :: cs

/-- The value of a hexadecimal digit. -/
def hexVal (c : Char) : Option Nat :=
  if '0' ≤ c ∧ c ≤ '9' then some (c.toNat - 48)
  else if 'a' ≤ c ∧ c ≤ 'f' then some (c.toNat - 87)
  else if 'A' ≤ c ∧ c ≤ 'F' then some (c.toNat - 55)
  else none

/-- The 16-bit unit written by the four hexadecimal digits of a `\u` escape. -/
def hex4 (a b c d : Char) : Option Nat :=
  match hexVal a, hexVal b, hexVal c, hexVal d with
  | some a, some b, some c, some d => some (((a * 16 + b) * 16 + c) * 16 + d)
  | _, _, _, _ => none

/-- The character a one-letter escape stands for. -/
def escapeChar (c : Char) : Option Char :=
  if c = '"' then some '"'
  else if c = '\\' then some '\\'
  else if c = '/' then some '/'
  else if c = 'b' then some (Char.ofNat 8)
  else if c = 'f' then some (Char.ofNat 12)
  else if c = 'n' then some '\n'
  else if c = 'r' then some '\r'
  else if c = 't' then some '\t'
  else none

/-- Scans a string literal after its opening quote: the units of its contents (a code
point for a plain character or a one-letter escape, a 16-bit unit for a `\u` escape)
and the input after the closing quote. A control character, an unknown escape or a
missing closing quote is a syntax error. -/
def scanString : Bytes → Option (List Nat × Bytes)
  | [] => none
  | c :: cs =>
    if c = '"' then some ([], cs)
    else if c = '\\' then
      match cs with
      | 'u' :: h1 :: h2 :: h3 :: h4 :: rest =>
        match hex4 h1 h2 h3 h4, scanString rest with
        | some u, some (us, out) => some (u :: us, out)
        | _, _ => none
      | e :: rest =>
        match escapeChar e, scanString rest with
        | some x, some (us, out) => some (x.toNat :: us, out)
        | _, _ => none
      | [] => none
    else if c.toNat < 32 then none
    else
      match scanString cs with
      | some (us, out) => some (c.toNat :: us, out)
      | none => none

/-- The characters of a scanned string (`unquote`): an escaped high surrogate directly
followed by an escaped low surrogate is one code point, any other surrogate becomes
U+FFFD. -/
def decodeUnits : List Nat → List Char
  | [] => []
  | [u] => [if 0xD800 ≤ u ∧ u < 0xE000 then Char.ofNat 0xFFFD else Char.ofNat u]
  | u :: v :: rest =>
    if 0xD800 ≤ u ∧ u < 0xDC00 ∧ 0xDC00 ≤ v ∧ v < 0xE000 then
      Char.ofNat (0x10000 + (u - 0xD800) * 0x400 + (v - 0xDC00)) :: decodeUnits rest
    else if 0xD800 ≤ u ∧ u < 0xE000 then Char.ofNat 0xFFFD :: decodeUnits (v :: rest)
    else Char.ofNat u :: decodeUnits (v :: rest)

/-- The leading decimal digits of the input, as a number and a count, and the rest. -/
def spanDigits : Bytes → Nat → Nat → Nat × Nat × Bytes
  | [], acc, n => (acc, n, [])
  | c :: cs, acc, n =>
    if c.isDigit then spanDigits cs (acc * 10 + (c.toNat - 48)) (n + 1)
    else (acc, n, c :: cs)

/-- The integer part of a number: a single `0`, or a nonzero digit and more digits. -/
def scanInt : Bytes → Option (Nat × Bytes)
  | [] => none
  | c :: cs =>
    if c = '0' then some (0, cs)
    else if c.isDigit then
      let (acc, _, rest) := spanDigits cs (c.toNat - 48) 1
      some (acc, rest)
    else none

/-- The optional fraction of a number after the integer part `int`: the digits of both
together, how many of them are fraction digits, and the rest. A `.` without a digit is a
syntax error. -/
def scanFrac (int : Nat) : Bytes → Option (Nat × Nat × Bytes)
  | '.' :: cs =>
    match spanDigits cs int 0 with
    | (_, 0, _) => none
    | (acc, n, rest) => some (acc, n, rest)
  | cs => some (int, 0, cs)

/-- The optional exponent of a number: its value and the rest. An `e` without a digit is
a syntax error. -/
def scanExp : Bytes → Option (Int × Bytes)
  | [] => some (0, [])
  | c :: cs =>
    if c = 'e' ∨ c = 'E' then
      match cs with
      | [] => none
      | s :: ds =>
        let (isNeg, body) :=
          if s = '-' then (true, ds) else if s = '+' then (false, ds) else (false, s :: ds)
        match spanDigits body 0 0 with
        | (_, 0, _) => none
        | (e, _, rest) => some (if isNeg then -(e : Int) else (e : Int), rest)
    else some (0, c :: cs)

/-- The optional minus sign of a number: whether it is there, and the rest. -/
def scanSign : Bytes → Bool × Bytes
  | '-' :: cs => (true, cs)
  | cs => (false, cs)

/-- Scans a number literal. -/
def scanNumber (input : Bytes) : Option (Float64 × Bytes) :=
  match scanInt (scanSign input).2 with
  | none => none
  | some (int, r1) =>
    match scanFrac int r1 with
    | none => none
    | some (digits, nfrac, r2) =>
      match scanExp r2 with
      | none => none
      | some (e, r3) => some (⟨(scanSign input).1, digits, e - (nfrac : Int)⟩, r3)

/-- Strips a literal word from the front of the input. -/
def stripWord : List Char → Bytes → Option Bytes
  | [], cs => some cs
  | _ :: _, [] => none
  | w :: ws, c :: cs => if w = c then stripWord ws cs else none

/-- The deepest nesting of arrays and objects the scanner accepts (`maxNestingDepth`). -/
def maxNestingDepth : Nat := 10000

mutual

/-- Reads one JSON value from the front of the input (no leading white space) and gives
the input after it; `depth` is the number of arrays and objects the value lies in, and an
array or object that would be nested deeper than `maxNestingDepth` is a syntax error.
The first argument bounds the number of nested calls; a call is entered at most two
calls after a character was consumed, so twice the length of the input, plus one, is
never used up (`parse_fuel`). -/
def parseValue : Nat → Nat → Bytes → Option (JSON × Bytes)
  | 0, _, _ => none
  | _ + 1, _, [] => none
  | fuel + 1, depth, c :: cs =>
    if c = '{' then
      if maxNestingDepth ≤ depth then none
      else
        match skipSpace cs with
        | '}' :: rest => some (JSON.object [], rest)
        | rest => parseMembers fuel (depth + 1) rest
    else if c = '[' then
      if maxNestingDepth ≤ depth then none
      else
        match skipSpace cs with
        | ']' :: rest => some (JSON.array [], rest)
        | rest => parseElems fuel (depth + 1) rest
    else if c = '"' then
      match scanString cs with
      | some (us, rest) => some (JSON.string (String.mk (decodeUnits us)), rest)
      | none => none
    else if c = 't' then (stripWord ['r', 'u', 'e'] cs).map (fun rest => (JSON.bool true, rest))
    else if c = 'f' then
      (stripWord ['a', 'l', 's', 'e'] cs).map (fun rest => (JSON.bool false, rest))
    else if c = 'n' then (stripWord ['u', 'l', 'l'] cs).map (fun rest => (JSON.null, rest))
    else
      match scanNumber (c :: cs) with
      | some (n, rest) => some (JSON.number n, rest)
      | none => none

/-- Reads the members of an object from the first key to the closing brace; `depth`
counts the object itself. -/
def parseMembers : Nat → Nat → Bytes → Option (JSON × Bytes)
  | 0, _, _ => none
  | fuel + 1, depth, input =>
    match input with
    | '"' :: cs =>
      match scanString cs with
      | none => none
      | some (us, r1) =>
        match skipSpace r1 with
        | ':' :: r2 =>
          match parseValue fuel depth (skipSpace r2) with
          | none => none
          | some (v, r3) =>
            let key := String.mk (decodeUnits us)
            match skipSpace r3 with
            | '}' :: rest => some (JSON.object [(key, v)], rest)
            | ',' :: r4 =>
              match parseMembers fuel depth (skipSpace r4) with
              | some (JSON.object ms, rest) => some (JSON.object ((key, v) :: ms), rest)
              | _ => none
            | _ => none
        | _ => none
    | _ => none

/-- Reads the elements of an array from the first element to the closing bracket;
`depth` counts the array itself. -/
def parseElems : Nat → Nat → Bytes → Option (JSON × Bytes)
  | 0, _, _ => none
  | fuel + 1, depth, input =>
    match parseValue fuel depth input with
    | none => none
    | some (v, r1) =>
      let raw := input.take (input.length - r1.length)
      match skipSpace r1 with
      | ']' :: rest => some (JSON.array [(raw, v)], rest)
      | ',' :: r2 =>
        match parseElems fuel depth (skipSpace r2) with
        | some (JSON.array es, rest) => some (JSON.array ((raw, v) :: es), rest)
        | _ => none
      | _ => none

end

/-- The syntax check and reading of a whole input (`checkValid`): white space, one value,
white space, nothing more. `none` is a `*json.SyntaxError`, which a text nested deeper
than `maxNestingDepth` gets as well. -/
def parse (data : Bytes) : Option JSON :=
  match parseValue (2 * data.length + 1) 0 (skipSpace data) with
  | some (v, rest) => if skipSpace rest = [] then some v else none
  | none => none

/-! ## Storing a JSON value into a Go value (the decoder of `encoding/json`) -/

/-- The errors the package deals in. -/
inductive Error where
  /-- A `*json.SyntaxError`: the input is not a JSON text. -/
  | SyntaxError
  /-- A `*json.UnmarshalTypeError`: a JSON value does not fit the Go type it is stored
  into. -/
  | UnmarshalTypeError
  /-- The result of `fmt.Errorf(format, arg)`. -/
  | Errorf (format : String) (arg : String)
  /-- The result of `fmt.Errorf(format, err, raw)`. -/
  | ErrorfWrap (format : String) (err : Error) (raw : Bytes)
deriving DecidableEq, Repr

/-- The decoder keeps the first error it meets and goes on (`saveError`). -/
def firstError (a b : Option Error) : Option Error :=
  match a with
  | some e => some e
  | none => b

/-- Case folding of a JSON key for the comparison with a field name: ASCII letters fold
to upper case, and so do the two letters outside ASCII that fold to one, the long s
(U+017F) and the Kelvin sign (U+212A). -/
def foldRune (c : Char) : Char :=
  if 'a' ≤ c ∧ c ≤ 'z' then Char.ofNat (c.toNat - 32)
  else if c = Char.ofNat 0x17F then 'S'
  else if c = Char.ofNat 0x212A then 'K'
  else c

/-- Whether the key of a JSON member equals a field name up to case. -/
def equalFold (name key : String) : Bool :=
  key.data.map foldRune = name.data.map foldRune

/-- Whether a number is too large for a float64, that is, rounds to infinity: its
magnitude is at least `2^1024 - 2^970`. `strconv.ParseFloat` then reports a range
error. -/
def Float64.overflows (n : Float64) : Bool :=
  if 0 ≤ n.exp10 then decide (2 ^ 1024 - 2 ^ 970 ≤ n.digits * 10 ^ n.exp10.toNat)
  else decide ((2 ^ 1024 - 2 ^ 970) * 10 ^ (-n.exp10).toNat ≤ n.digits)

/-- Stores a JSON value into a Go `string` holding `cur`: a string is stored, `null`
changes nothing, anything else is a type error and changes nothing. -/
def storeString (cur : String) : JSON → String × Option Error
  | JSON.string s => (s, none)
  | JSON.null => (cur, none)
  | _ => (cur, some Error.UnmarshalTypeError)

/-- Stores a JSON value into a Go `float64` holding `cur`: a number in range is stored,
`null` changes nothing, anything else is a type error and changes nothing. -/
def storeFloat64 (cur : Float64) : JSON → Float64 × Option Error
  | JSON.number n => if n.overflows then (cur, some Error.UnmarshalTypeError) else (n, none)
  | JSON.null => (cur, none)
  | _ => (cur, some Error.UnmarshalTypeError)

/-- A store of a value as the store of an array element, which comes with its text. -/
def elem {α : Type} (store : α → JSON → α × Option Error) (cur : α) (v : Bytes × JSON) :
    α × Option Error :=
  store cur v.2

/-- Stores a JSON value into a `json.RawMessage`: it receives the text of the value,
whatever the value is. -/
def storeRawMessage (_cur : Bytes) (v : Bytes × JSON) : Bytes × Option Error :=
  (v.1, none)

/-- Stores the elements of a JSON array into the elements of a fresh slice, one slice
element for each array element, in order; an element that is `null` or fails keeps the
zero value. (Where an object repeats a member the decoder reuses the slice stored
before, so such an element keeps what the first member stored there, depending on the
release; the embedding has the zero value there. Lengths are not affected.) -/
def storeElems {α : Type} (store : α → Bytes × JSON → α × Option Error) (zero : α) :
    List (Bytes × JSON) → List α × Option Error
  | [] => ([], none)
  | v :: rest =>
    let x := store zero v
    let xs := storeElems store zero rest
    (x.1 :: xs.1, firstError x.2 xs.2)

/-- Stores a JSON value into a Go slice holding `cur`: an array is stored element by
element, `null` makes it nil, anything else is a type error and changes nothing. -/
def storeSlice {α : Type} (store : α → Bytes × JSON → α × Option Error) (zero : α)
    (cur : List α) : JSON → List α × Option Error
  | JSON.array elems => storeElems store zero elems
  | JSON.null => ([], none)
  | _ => (cur, some Error.UnmarshalTypeError)

/-- Stores the members of a JSON object into a struct, in document order; `field`
stores one member into the field its key selects. A later member overwrites what an
earlier one stored into the same field. -/
def storeMembers {σ : Type} (field : σ → String → JSON → σ × Option Error) :
    σ → List (String × JSON) → σ × Option Error
  | s, [] => (s, none)
  | s, (k, v) :: rest =>
    let s1 := field s k v
    let s2 := storeMembers field s1.1 rest
    (s2.1, firstError s1.2 s2.2)

/-- Stores a JSON value into a struct holding `cur`: an object is stored member by
member, `null` changes nothing, anything else is a type error. -/
def storeStruct {σ : Type} (field : σ → String → JSON → σ × Option Error) (cur : σ) :
    JSON → σ × Option Error
  | JSON.object ms => storeMembers field cur ms
  | JSON.null => (cur, none)
  | _ => (cur, some Error.UnmarshalTypeError)

/-- The call `json.Unmarshal(data, v)` for `v` pointing to a struct that holds `cur`:
the struct afterwards, and the error. A text that fails the syntax check leaves the
struct as it was. -/
def Unmarshal {σ : Type} (field : σ → String → JSON → σ × Option Error) (cur : σ)
    (data : Bytes) : σ × Option Error :=
  match parse data with
  | none => (cur, some Error.SyntaxError)
  | some v => storeStruct field cur v

/-! ## parser/geo-json.go -/

/-- The struct behind every `Geometry`: the type tag and the bytes it was read from. -/
structure jsonPeek where
  TypeName : String
  raw : Bytes
deriving DecidableEq, Repr

/-- The interface `Geometry`. `*jsonPeek` is its one implementation, and a caller sees
nothing of a value but its two methods, so a (non-nil) `Geometry` is a `jsonPeek`. -/
abbrev Geometry := jsonPeek

/-- The method `Type()`. -/
def jsonPeek.Type_ (peek : jsonPeek) : String := peek.TypeName

/-- The method `Raw()`. -/
def jsonPeek.Raw (peek : jsonPeek) : Bytes := peek.raw

/-- The fields of `jsonPeek` for the decoder: `TypeName`, tagged `type`; `raw` is not
exported and is never written. -/
def jsonPeek.field (peek : jsonPeek) (key : String) (v : JSON) : jsonPeek × Option Error :=
  if equalFold "type" key then
    let s := storeString peek.TypeName v
    ({ peek with TypeName := s.1 }, s.2)
  else (peek, none)

/-- `NewGeometry`: keeps the input and reads its type tag. -/
def NewGeometry (geoJSON : Bytes) : Option Geometry × Option Error :=
  let peek := Unmarshal jsonPeek.field { TypeName := "", raw := geoJSON } geoJSON
  match peek.2 with
  | some err => (none, some err)
  | none => (some peek.1, none)

/-- The type `Coordinate`, a slice of float64. -/
abbrev Coordinate := List Float64

/-- The decoder's store into a `Coordinate`. -/
def storeCoordinate : Coordinate → JSON → Coordinate × Option Error :=
  storeSlice (elem storeFloat64) Float64.zero

/-- The decoder's store into a `[]Coordinate`. -/
def storeCoordinates : List Coordinate → JSON → List Coordinate × Option Error :=
  storeSlice (elem storeCoordinate) []

/-- The decoder's store into a `[][]Coordinate`. -/
def storeCoordinates2 :
    List (List Coordinate) → JSON → List (List Coordinate) × Option Error :=
  storeSlice (elem storeCoordinates) []

/-- The decoder's store into a `[][][]Coordinate`. -/
def storeCoordinates3 :
    List (List (List Coordinate)) → JSON → List (List (List Coordinate)) × Option Error :=
  storeSlice (elem storeCoordinates2) []

/-- The struct `Point`. -/
structure Point where
  Type_ : String
  Coordinate : Coordinate
deriving DecidableEq, Repr

/-- The fields of `Point` for the decoder. -/
def Point.field (pt : Point) (key : String) (v : JSON) : Point × Option Error :=
  if equalFold "type" key then
    let s := storeString pt.Type_ v
    ({ pt with Type_ := s.1 }, s.2)
  else if equalFold "coordinates" key then
    let s := storeCoordinate pt.Coordinate v
    ({ pt with Coordinate := s.1 }, s.2)
  else (pt, none)

/-- `AsPoint`. -/
def AsPoint (geo : Geometry) : Option Point × Option Error :=
  if geo.Type_ ≠ "Point" then
    (none, some (Error.Errorf "Can't create a Point from type='%v'" geo.Type_))
  else
    let pt := Unmarshal Point.field { Type_ := "", Coordinate := [] } geo.Raw
    (some pt.1, pt.2)

/-- The struct `LineString`. -/
structure LineString where
  Type_ : String
  Coordinates : List Coordinate
deriving DecidableEq, Repr

/-- The fields of `LineString` for the decoder. -/
def LineString.field (ls : LineString) (key : String) (v : JSON) :
    LineString × Option Error :=
  if equalFold "type" key then
    let s := storeString ls.Type_ v
    ({ ls with Type_ := s.1 }, s.2)
  else if equalFold "coordinates" key then
    let s := storeCoordinates ls.Coordinates v
    ({ ls with Coordinates := s.1 }, s.2)
  else (ls, none)

/-- `AsLineString`. -/
def AsLineString (geo : Geometry) : Option LineString × Option Error :=
  if geo.Type_ ≠ "LineString" then
    (none, some (Error.Errorf "Can't create a LineString from type='%v'" geo.Type_))
  else
    let ls := Unmarshal LineString.field { Type_ := "", Coordinates := [] } geo.Raw
    (some ls.1, ls.2)

/-- The struct `Polygon`. -/
structure Polygon where
  Type_ : String
  Coordinates : List (List Coordinate)
deriving DecidableEq, Repr

/-- The fields of `Polygon` for the decoder. -/
def Polygon.field (pg : Polygon) (key : String) (v : JSON) : Polygon × Option Error :=
  if equalFold "type" key then
    let s := storeString pg.Type_ v
    ({ pg with Type_ := s.1 }, s.2)
  else if equalFold "coordinates" key then
    let s := storeCoordinates2 pg.Coordinates v
    ({ pg with Coordinates := s.1 }, s.2)
  else (pg, none)

/-- `AsPolygon`. -/
def AsPolygon (geo : Geometry) : Option Polygon × Option Error :=
  if geo.Type_ ≠ "Polygon" then
    (none, some (Error.Errorf "Can't create a Polygon from type='%v'" geo.Type_))
  else
    let pg := Unmarshal Polygon.field { Type_ := "", Coordinates := [] } geo.Raw
    (some pg.1, pg.2)

/-- The struct `MultiPoint`. -/
structure MultiPoint where
  Type_ : String
  Coordinates : List Coordinate
deriving DecidableEq, Repr

/-- The fields of `MultiPoint` for the decoder. -/
def MultiPoint.field (mp : MultiPoint) (key : String) (v : JSON) :
    MultiPoint × Option Error :=
  if equalFold "type" key then
    let s := storeString mp.Type_ v
    ({ mp with Type_ := s.1 }, s.2)
  else if equalFold "coordinates" key then
    let s := storeCoordinates mp.Coordinates v
    ({ mp with Coordinates := s.1 }, s.2)
  else (mp, none)

/-- `AsMultiPoint`. -/
def AsMultiPoint (geo : Geometry) : Option MultiPoint × Option Error :=
  if geo.Type_ ≠ "MultiPoint" then
    (none, some (Error.Errorf "Can't create a MultiPoint from type='%v'" geo.Type_))
  else
    let mp := Unmarshal MultiPoint.field { Type_ := "", Coordinates := [] } geo.Raw
    (some mp.1, mp.2)

/-- The struct `MultiLineString`. -/
structure MultiLineString where
  Type_ : String
  Coordinates : List (List Coordinate)
deriving DecidableEq, Repr

/-- The fields of `MultiLineString` for the decoder. -/
def MultiLineString.field (mls : MultiLineString) (key : String) (v : JSON) :
    MultiLineString × Option Error :=
  if equalFold "type" key then
    let s := storeString mls.Type_ v
    ({ mls with Type_ := s.1 }, s.2)
  else if equalFold "coordinates" key then
    let s := storeCoordinates2 mls.Coordinates v
    ({ mls with Coordinates := s.1 }, s.2)
  else (mls, none)

/-- `AsMultiLineString`. -/
def AsMultiLineString (geo : Geometry) : Option MultiLineString × Option Error :=
  if geo.Type_ ≠ "MultiLineString" then
    (none, some (Error.Errorf "Can't create a MultiLineSring from type='%v'" geo.Type_))
  else
    let mls := Unmarshal MultiLineString.field { Type_ := "", Coordinates := [] } geo.Raw
    (some mls.1, mls.2)

/-- The struct `MultiPolygon`. -/
structure MultiPolygon where
  Type_ : String
  Coordinates : List (List (List Coordinate))
deriving DecidableEq, Repr

/-- The fields of `MultiPolygon` for the decoder. -/
def MultiPolygon.field (mpg : MultiPolygon) (key : String) (v : JSON) :
    MultiPolygon × Option Error :=
  if equalFold "type" key then
    let s := storeString mpg.Type_ v
    ({ mpg with Type_ := s.1 }, s.2)
  else if equalFold "coordinates" key then
    let s := storeCoordinates3 mpg.Coordinates v
    ({ mpg with Coordinates := s.1 }, s.2)
  else (mpg, none)

/-- `AsMultiPolygon`. -/
def AsMultiPolygon (geo : Geometry) : Option MultiPolygon × Option Error :=
  if geo.Type_ ≠ "MultiPolygon" then
    (none, some (Error.Errorf "Can't create a MultiPolygon from type='%v'" geo.Type_))
  else
    let mpg := Unmarshal MultiPolygon.field { Type_ := "", Coordinates := [] } geo.Raw
    (some mpg.1, mpg.2)

/-- The struct `GeometryCollection`. An element of `Geometries` is an interface value,
`none` when it is nil. -/
structure GeometryCollection where
  Type_ : String
  AnonymousGeoms : List Bytes
  Geometries : List (Option Geometry)
deriving DecidableEq, Repr

/-- The decoder's store into a `Geometry`, an interface with methods: `null` makes it
nil, nothing else can be stored. -/
def storeGeometry (cur : Option Geometry) (v : Bytes × JSON) :
    Option Geometry × Option Error :=
  match v.2 with
  | JSON.null => (none, none)
  | _ => (cur, some Error.UnmarshalTypeError)

/-- The fields of `GeometryCollection` for the decoder: `Type` tagged `type`,
`AnonymousGeoms` tagged `geometries`, and `Geometries`, which has no tag and so goes by
its own name. A key selects the field whose name it equals, else the first field whose
name it equals up to case. -/
def GeometryCollection.field (gc : GeometryCollection) (key : String) (v : JSON) :
    GeometryCollection × Option Error :=
  if key = "Geometries" then
    let s := storeSlice storeGeometry none gc.Geometries v
    ({ gc with Geometries := s.1 }, s.2)
  else if equalFold "type" key then
    let s := storeString gc.Type_ v
    ({ gc with Type_ := s.1 }, s.2)
  else if equalFold "geometries" key then
    let s := storeSlice storeRawMessage [] gc.AnonymousGeoms v
    ({ gc with AnonymousGeoms := s.1 }, s.2)
  else (gc, none)

/-- The loop of `AsGeometryCollection` from index `i` on, over the fragments still to
read: each envelope is written at its index into `geoms`; the first fragment that
`NewGeometry` refuses ends the loop with its error. -/
def childGeometries : List Bytes → Nat → List (Option Geometry) →
    Except Error (List (Option Geometry))
  | [], _, geoms => Except.ok geoms
  | frag :: rest, i, geoms =>
    match NewGeometry frag with
    | (_, some err) => Except.error err
    | (g, none) => childGeometries rest (i + 1) (geoms.set i g)

/-- `AsGeometryCollection`. -/
def AsGeometryCollection (geo : Geometry) : Option GeometryCollection × Option Error :=
  if geo.Type_ ≠ "GeometryCollection" then
    (none, some (Error.Errorf "Can't create a GeometryCollection from type='%v'" geo.Type_))
  else
    let gc := Unmarshal GeometryCollection.field
      { Type_ := "", AnonymousGeoms := [], Geometries := [] } geo.Raw
    match gc.2 with
    | some err =>
      (none, some (Error.ErrorfWrap "json.Unmarshal error ='%v' for GeometryCollection=%v"
        err geo.Raw))
    | none =>
      let geoms := List.replicate gc.1.AnonymousGeoms.length none
      match childGeometries gc.1.AnonymousGeoms 0 geoms with
      | Except.error err => (some gc.1, some err)
      | Except.ok geoms => (some { gc.1 with Geometries := geoms }, none)

/-! ## parser/s2.go -/

/-- A computation that either returns or aborts the program with a run-time panic. -/
inductive Run (α : Type) where
  | ret (a : α)
  | panic (msg : String)
deriving DecidableEq, Repr

/-- The read `xs[i]` of a Go slice: a panic when `i` is not below the length. -/
def index {α : Type} (xs : List α) (i : Nat) : Run α :=
  match xs[i]? with
  | some x => Run.ret x
  | none => Run.panic "index out of range"

namespace s2

/-- The result of `s2.LatLngFromDegrees(lat, lng)`, kept as its two arguments. -/
structure LatLng where
  lat : Float64
  lng : Float64
deriving DecidableEq, Repr

/-- An `s2.Point`: the zero value, or the result of `s2.PointFromLatLng`. -/
inductive Point where
  | zero
  | ofLatLng (ll : LatLng)
deriving DecidableEq, Repr

/-- The result of `s2.LoopFromPoints`, kept as the points it was given. -/
structure Loop where
  vertices : List Point
deriving DecidableEq, Repr

/-- The result of `s2.PolygonFromLoops`, kept as the loops it was given. -/
structure Polygon where
  loops : List Loop
deriving DecidableEq, Repr

/-- The call `s2.LatLngFromDegrees(lat, lng)`. -/
def LatLngFromDegrees (lat lng : Float64) : LatLng := ⟨lat, lng⟩

/-- The call `s2.PointFromLatLng(ll)`. -/
def PointFromLatLng (ll : LatLng) : Point := Point.ofLatLng ll

/-- The call `s2.LoopFromPoints(pts)`. -/
def LoopFromPoints (pts : List Point) : Loop := ⟨pts⟩

/-- The call `s2.PolygonFromLoops(loops)`. As the comment on `AsS2Polygon` quotes from
the library, it panics when given more than one loop. -/
def PolygonFromLoops (loops : List Loop) : Run Polygon :=
  if 1 < loops.length then Run.panic "PolygonFromLoops: more than one loop"
  else Run.ret ⟨loops⟩

end s2

/-- `S2PointFromCoordinate`: reads `coord[0]` and `coord[1]`. -/
def S2PointFromCoordinate (coord : Coordinate) : Run s2.Point :=
  match index coord 0 with
  | Run.panic msg => Run.panic msg
  | Run.ret c0 =>
    match index coord 1 with
    | Run.panic msg => Run.panic msg
    | Run.ret c1 => Run.ret (s2.PointFromLatLng (s2.LatLngFromDegrees c0 c1))

/-- `AsS2Point` (its `*testing.T` argument is not used). -/
def AsS2Point (geo : Geometry) : Run (s2.Point × Option Error) :=
  if geo.Type_ = "Point" then
    match AsPoint geo with
    | (_, some err) => Run.ret (s2.Point.zero, some err)
    | (none, none) => Run.panic "nil pointer dereference"
    | (some gjPoint, none) =>
      match index gjPoint.Coordinate 0 with
      | Run.panic msg => Run.panic msg
      | Run.ret c0 =>
        match index gjPoint.Coordinate 1 with
        | Run.panic msg => Run.panic msg
        | Run.ret c1 => Run.ret (s2.PointFromLatLng (s2.LatLngFromDegrees c0 c1), none)
  else
    Run.ret (s2.Point.zero,
      some (Error.Errorf "Can't construct a s2.Point type from a geo-json %v type" geo.Type_))

/-- The loops over a slice of coordinates in `AsS2PointSlice` and `AsS2Polygon`: the
point of each coordinate, in order, at the index of its coordinate. -/
def pointsOf : List Coordinate → Run (List s2.Point)
  | [] => Run.ret []
  | coord :: rest =>
    match S2PointFromCoordinate coord with
    | Run.panic msg => Run.panic msg
    | Run.ret p =>
      match pointsOf rest with
      | Run.panic msg => Run.panic msg
      | Run.ret ps => Run.ret (p :: ps)

/-- `AsS2PointSlice`. A nil slice is the empty list. -/
def AsS2PointSlice (geo : Geometry) : Run (List s2.Point × Option Error) :=
  if geo.Type_ = "LineString" then
    match AsLineString geo with
    | (_, some err) => Run.ret ([], some err)
    | (none, none) => Run.panic "nil pointer dereference"
    | (some ls, none) =>
      match pointsOf ls.Coordinates with
      | Run.panic msg => Run.panic msg
      | Run.ret points => Run.ret (points, none)
  else if geo.Type_ = "MultiPoint" then
    match AsMultiPoint geo with
    | (_, some err) => Run.ret ([], some err)
    | (none, none) => Run.panic "nil pointer dereference"
    | (some mp, none) =>
      match pointsOf mp.Coordinates with
      | Run.panic msg => Run.panic msg
      | Run.ret points => Run.ret (points, none)
  else
    Run.ret ([], some (Error.Errorf "Can't make an []s2.Point slice from type=%v" geo.Type_))

/-- The outer loop of `AsS2Polygon`: the loop of each ring, in order. -/
def loopsOf : List (List Coordinate) → Run (List s2.Loop)
  | [] => Run.ret []
  | coordLoop :: rest =>
    match pointsOf coordLoop with
    | Run.panic msg => Run.panic msg
    | Run.ret points =>
      match loopsOf rest with
      | Run.panic msg => Run.panic msg
      | Run.ret loops => Run.ret (s2.LoopFromPoints points :: loops)

/-- `AsS2Polygon`. -/
def AsS2Polygon (geo : Geometry) : Run (Option s2.Polygon × Option Error) :=
  if geo.Type_ = "Polygon" then
    match AsPolygon geo with
    | (_, some err) => Run.ret (none, some err)
    | (none, none) => Run.panic "nil pointer dereference"
    | (some pg, none) =>
      match loopsOf pg.Coordinates with
      | Run.panic msg => Run.panic msg
      | Run.ret loops =>
        match s2.PolygonFromLoops loops with
        | Run.panic msg => Run.panic msg
        | Run.ret polygon => Run.ret (some polygon, none)
  else
    Run.ret (none, some (Error.Errorf "Can't construct an s2.Polygon from type=%v" geo.Type_))

/-! ## Inputs of the test suite and of the examples below -/

/-- The fixture `pointFixture` of `geo-json_test.go`. -/
def pointFixture : Bytes :=
  "\x7b\n\t\t\"type\": \"Point\",\n\t\t\"coordinates\": [102.0, 0.5]\n\t\x7d".toList

/-- The fixture `linestringFixture` of `geo-json_test.go`. -/
def linestringFixture : Bytes :=
  ("\x7b\n\t\"type\": \"LineString\",\n\t\"coordinates\": [\n\t\t[102.0, 0.0],\n\t\t[103.0, 1.0]," ++
    "\n\t\t[104.0, 0.0],\n\t\t[105.0, 1.0]\n\t\t]\n\t\x7d").toList

/-- The fixture `polygonFixture` of `geo-json_test.go`. -/
def polygonFixture : Bytes :=
  ("\x7b\n\t\"type\": \"Polygon\",\n\t\"coordinates\": [\n\t\t[\n\t\t\t[100.0, 0.0],\n\t\t\t[101.0, 0.0]," ++
    "\n\t\t\t[101.0, 1.0],\n\t\t\t[100.0, 1.0],\n\t\t\t[100.0, 0.0]\n\t\t]\n\t]\x7d").toList

/-- The coordinates of `polygonFixture`, decoded. -/
def polygonCoordinates : List (List Coordinate) :=
  [[[⟨false, 1000, -1⟩, ⟨false, 0, -1⟩], [⟨false, 1010, -1⟩, ⟨false, 0, -1⟩],
    [⟨false, 1010, -1⟩, ⟨false, 10, -1⟩], [⟨false, 1000, -1⟩, ⟨false, 10, -1⟩],
    [⟨false, 1000, -1⟩, ⟨false, 0, -1⟩]]]

/-- The fixture `multipointFixture` of `geo-json_test.go`. -/
def multipointFixture : Bytes :=
  ("\x7b\n\t\"type\": \"MultiPoint\",\n\t\"coordinates\": [\n\t\t[100.0, 0.0]," ++
    "\n\t\t[101.0, 1.0]\n\t\t]\n\t\x7d").toList

/-- The coordinates of `multipointFixture`, decoded. -/
def multipointCoordinates : List Coordinate :=
  [[⟨false, 1000, -1⟩, ⟨false, 0, -1⟩], [⟨false, 1010, -1⟩, ⟨false, 10, -1⟩]]

/-- The fixture `multiLineStringFixture` of `geo-json_test.go`. -/
def multiLineStringFixture : Bytes :=
  ("\x7b\n\t\"type\": \"MultiLineString\",\n\t\"coordinates\": [\n\t\t[\n\t\t\t[100.0, 0.0]," ++
    "\n\t\t\t[101.0, 1.0]\n\t\t],\n\t\t[\n\t\t\t[102.0, 2.0],\n\t\t\t[103.0, 3.0]\n\t\t]\n\t]\x7d").toList

/-- The coordinates of `multiLineStringFixture`, decoded. -/
def multiLineStringCoordinates : List (List Coordinate) :=
  [[[⟨false, 1000, -1⟩, ⟨false, 0, -1⟩], [⟨false, 1010, -1⟩, ⟨false, 10, -1⟩]],
   [[⟨false, 1020, -1⟩, ⟨false, 20, -1⟩], [⟨false, 1030, -1⟩, ⟨false, 30, -1⟩]]]

/-- The fixture `multiPolygonFixture` of `geo-json_test.go`. -/
def multiPolygonFixture : Bytes :=
  ("\x7b\n\t\"type\": \"MultiPolygon\",\n\t\"coordinates\": [\n\t\t[\n\t\t\t[" ++
    "\n\t\t\t\t[180.0, 40.0], [180.0, 50.0], [170.0, 50.0]," ++
    "\n\t\t\t\t[170.0, 40.0], [180.0, 40.0]\n\t\t\t]\n\t\t],\n\t\t[\n\t\t\t[" ++
    "\n\t\t\t\t[-170.0, 40.0], [-170.0, 50.0], [-180.0, 50.0]," ++
    "\n\t\t\t\t[-180.0, 40.0], [-170.0, 40.0]\n\t\t\t]\n\t\t]\n\t]\x7d").toList

/-- The coordinates of `multiPolygonFixture`, decoded. -/
def multiPolygonCoordinates : List (List (List Coordinate)) :=
  [[[[⟨false, 1800, -1⟩, ⟨false, 400, -1⟩], [⟨false, 1800, -1⟩, ⟨false, 500, -1⟩],
     [⟨false, 1700, -1⟩, ⟨false, 500, -1⟩], [⟨false, 1700, -1⟩, ⟨false, 400, -1⟩],
     [⟨false, 1800, -1⟩, ⟨false, 400, -1⟩]]],
   [[[⟨true, 1700, -1⟩, ⟨false, 400, -1⟩], [⟨true, 1700, -1⟩, ⟨false, 500, -1⟩],
     [⟨true, 1800, -1⟩, ⟨false, 500, -1⟩], [⟨true, 1800, -1⟩, ⟨false, 400, -1⟩],
     [⟨true, 1700, -1⟩, ⟨false, 400, -1⟩]]]]

/-- The fixture `geometryCollectionFixture` of `geo-json_test.go`. -/
def geometryCollectionFixture : Bytes :=
  ("\x7b\n\t\"type\": \"GeometryCollection\",\n\t\"geometries\": [\x7b\n\t\t\"type\": \"Point\"," ++
    "\n\t\t\"coordinates\": [100.0, 0.0]\n\t\t\x7d, \x7b\n\t\t\"type\": \"LineString\"," ++
    "\n\t\t\"coordinates\": [\n\t\t\t[101.0, 0.0],\n\t\t\t[102.0, 1.0]\n\t\t]\n\t\t\x7d\n\t]\x7d").toList

/-- The text of the first child of `geometryCollectionFixture`. -/
def fixtureFirstChild : Bytes :=
  "\x7b\n\t\t\"type\": \"Point\",\n\t\t\"coordinates\": [100.0, 0.0]\n\t\t\x7d".toList

/-- The text of the second child of `geometryCollectionFixture`. -/
def fixtureSecondChild : Bytes :=
  ("\x7b\n\t\t\"type\": \"LineString\",\n\t\t\"coordinates\": [\n\t\t\t[101.0, 0.0]," ++
    "\n\t\t\t[102.0, 1.0]\n\t\t]\n\t\t\x7d").toList

/-- What `AsGeometryCollection` makes of `geometryCollectionFixture`. -/
def fixtureCollection : GeometryCollection :=
  { Type_ := "GeometryCollection",
    AnonymousGeoms := [fixtureFirstChild, fixtureSecondChild],
    Geometries := [some { TypeName := "Point", raw := fixtureFirstChild },
                   some { TypeName := "LineString", raw := fixtureSecondChild }] }

/-- An object with a member `type` and, after it, a member `TYPE`. -/
def shadowedType : Bytes :=
  "\x7b\"type\":\"Point\",\"TYPE\":\"LineString\"\x7d".toList

/-- An object without a member `type`. -/
def untyped : Bytes := "\x7b\"coordinates\":[102.0,0.5]\x7d".toList

/-- An object whose member `type` is `null`. -/
def nullType : Bytes := "\x7b\"type\":null,\"coordinates\":[102.0,0.5]\x7d".toList

/-- An object of a type that is not a geometry. -/
def featureType : Bytes := "\x7b\"type\":\"Feature\",\"geometry\":null\x7d".toList

/-- A collection whose one child is the object of `shadowedType`. -/
def shadowedChild : Bytes :=
  ("\x7b\"type\":\"GeometryCollection\",\"geometries\":[" ++
    "\x7b\"type\":\"Point\",\"TYPE\":\"LineString\"\x7d]\x7d").toList

/-- The first child of `brokenChild`, a Point. -/
def goodFragment : Bytes := "\x7b\"type\":\"Point\",\"coordinates\":[100.0,0.0]\x7d".toList

/-- The second child of `brokenChild`, whose type is a number. -/
def badFragment : Bytes := "\x7b\"type\":7\x7d".toList

/-- A collection of a Point and of a child whose type is a number. -/
def brokenChild : Bytes :=
  ("\x7b\"type\":\"GeometryCollection\",\"geometries\":[" ++
    "\x7b\"type\":\"Point\",\"coordinates\":[100.0,0.0]\x7d,\x7b\"type\":7\x7d]\x7d").toList

/-- A Polygon with two rings, an exterior and a hole. -/
def twoRings : Bytes :=
  ("\x7b\"type\":\"Polygon\",\"coordinates\":[" ++
    "[[100.0,0.0],[101.0,0.0],[101.0,1.0],[100.0,1.0],[100.0,0.0]]," ++
    "[[100.2,0.2],[100.8,0.2],[100.8,0.8],[100.2,0.8],[100.2,0.2]]]\x7d").toList

/-- A Polygon whose one ring has two coordinates. -/
def shortRing : Bytes :=
  "\x7b\"type\":\"Polygon\",\"coordinates\":[[[100.0,0.0],[101.0,1.0]]]\x7d".toList

/-- The ring of `shortRing`, decoded. -/
def shortRingCoordinates : List Coordinate :=
  [[⟨false, 1000, -1⟩, ⟨false, 0, -1⟩], [⟨false, 1010, -1⟩, ⟨false, 10, -1⟩]]

/-- The coordinates of `linestringFixture`, decoded. -/
def linestringCoordinates : List Coordinate :=
  [[⟨false, 1020, -1⟩, ⟨false, 0, -1⟩], [⟨false, 1030, -1⟩, ⟨false, 10, -1⟩],
   [⟨false, 1040, -1⟩, ⟨false, 0, -1⟩], [⟨false, 1050, -1⟩, ⟨false, 10, -1⟩]]

/-- The coordinate of `pointFixture`, decoded. -/
def pointCoordinate : Coordinate := [⟨false, 1020, -1⟩, ⟨false, 5, -1⟩]

/-- The elements of the `coordinates` array of `pointFixture`, as read. -/
def pointFixtureElems : List (Bytes × JSON) :=
  [("102.0".toList, JSON.number ⟨false, 1020, -1⟩), ("0.5".toList, JSON.number ⟨false, 5, -1⟩)]

/-- The members of `pointFixture`, as read. -/
def pointFixtureMembers : List (String × JSON) :=
  [("type", JSON.string "Point"), ("coordinates", JSON.array pointFixtureElems)]

/-- A Point with an empty coordinate array. -/
def emptyPoint : Bytes := "\x7b\"type\":\"Point\",\"coordinates\":[]\x7d".toList

/-! ## Notions the statements use -/

/-- The string value of the type field a text declares, in the words of the
specification: the value of the member named `type` of its top-level object, when that
is a string (the last such member, should the object repeat the name). -/
def declaredType (b : Bytes) : Option String :=
  match parse b with
  | some (JSON.object ms) =>
    match (ms.filter (fun m => m.1 = "type")).getLast? with
    | some (_, JSON.string s) => some s
    | _ => none
  | _ => none

/-- The string a member gives the type tag: its value, when the key is `type` up to case
and the value is a string. -/
def typeString (m : String × JSON) : Option String :=
  match m.2 with
  | JSON.string s => if equalFold "type" m.1 then some s else none
  | _ => none

/-- The type tag read from a JSON value: the string value of the last member of the
object whose key is `type` up to case and whose value is a string; the empty string when
there is none. -/
def sniffedType : JSON → String
  | JSON.object ms => ((ms.filterMap typeString).getLast?).getD ""
  | _ => ""

/-- A member the envelope cannot take: its key is `type` up to case and its value is
neither a string nor `null`. -/
def badTypeMember (m : String × JSON) : Bool :=
  equalFold "type" m.1 &&
    match m.2 with
    | JSON.string _ => false
    | JSON.null => false
    | _ => true

/-- The inputs `NewGeometry` refuses, by the result of reading them: a text that is not
JSON, a top-level value that is neither an object nor `null`, an object with a member
that `badTypeMember` describes. -/
def refused : Option JSON → Bool
  | none => true
  | some (JSON.object ms) => ms.any badTypeMember
  | some JSON.null => false
  | some _ => true


/-- The value of the last member of an object whose key is `name` up to case, which is
the member whose store is the last into the field of that name. -/
def lastMember (name : String) : List (String × JSON) → Option JSON
  | [] => none
  | (k, v) :: rest =>
    match lastMember name rest with
    | some w => some w
    | none => if equalFold name k then some v else none

/-- A Coordinate as read from a JSON value: it has as many elements as the array the
value is, and none when the value is `null`. -/
def ReadsCoordinate : JSON → Coordinate → Prop
  | JSON.array es, coord => coord.length = es.length
  | JSON.null, coord => coord = []
  | _, _ => False

/-- A slice as read from a JSON value: it has one element for each element of the array
the value is, in order, each read from its element as `R` says, and none when the value
is `null`. -/
def ReadsSlice {α : Type} (R : JSON → α → Prop) : JSON → List α → Prop
  | JSON.array es, xs => List.Forall₂ (fun e x => R e.2 x) es xs
  | JSON.null, xs => xs = []
  | _, _ => False

/-- A `[]Coordinate` as read from a JSON value. -/
def ReadsCoordinates : JSON → List Coordinate → Prop :=
  ReadsSlice ReadsCoordinate

/-- A `[][]Coordinate` as read from a JSON value. -/
def ReadsCoordinates2 : JSON → List (List Coordinate) → Prop :=
  ReadsSlice ReadsCoordinates

/-- A `[][][]Coordinate` as read from a JSON value. -/
def ReadsCoordinates3 : JSON → List (List (List Coordinate)) → Prop :=
  ReadsSlice ReadsCoordinates2

/-- The coordinates field of a record as read from a document: read, as `R` says, from
the last member of the top-level object named `coordinates` up to case; empty when the
object has no such member or the document is `null`. -/
def ReadsField {α : Type} (R : JSON → List α → Prop) : JSON → List α → Prop
  | JSON.object ms, xs =>
    match lastMember "coordinates" ms with
    | some v => R v xs
    | none => xs = []
  | JSON.null, xs => xs = []
  | _, _ => False

/-! ## Lemmas on the decoder -/

theorem getLast?_cons_getD {α : Type} (s d : α) (l : List α) :
    ((s :: l).getLast?).getD d = (l.getLast?).getD s := by
  cases l with
  | nil => rfl
  | cons a l => simp [List.getLast?_cons_cons, List.getLast?_eq_getLast (a :: l) (by simp)]

/-- The envelope after the members of an object were stored into it: its tag is the
last string a member named `type` up to case gave, and its bytes are untouched. -/
theorem storeMembers_peek_fst (ms : List (String × JSON)) (p : jsonPeek) :
    (storeMembers jsonPeek.field p ms).1 =
      { TypeName := ((ms.filterMap typeString).getLast?).getD p.TypeName, raw := p.raw } := by
  induction ms generalizing p with
  | nil => simp [storeMembers]
  | cons m rest ih =>
    obtain ⟨k, v⟩ := m
    simp only [storeMembers, ih]
    by_cases hk : equalFold "type" k = true
    · cases v <;>
        simp [jsonPeek.field, hk, storeString, typeString, List.filterMap_cons,
          getLast?_cons_getD]
    · cases v <;> simp [jsonPeek.field, hk, storeString, typeString, List.filterMap_cons]

/-- Storing the members of an object into an envelope succeeds exactly when no member
named `type` up to case holds a number, a boolean, an array or an object. -/
theorem storeMembers_peek_snd (ms : List (String × JSON)) (p : jsonPeek) :
    (storeMembers jsonPeek.field p ms).2 = none ↔ ms.any badTypeMember = false := by
  induction ms generalizing p with
  | nil => simp [storeMembers]
  | cons m rest ih =>
    obtain ⟨k, v⟩ := m
    simp only [storeMembers, List.any_cons, Bool.or_eq_false_iff]
    rw [← ih (jsonPeek.field p k v).1]
    by_cases hk : equalFold "type" k = true
    · cases v <;> simp [jsonPeek.field, hk, storeString, badTypeMember, firstError]
    · cases v <;> simp [jsonPeek.field, hk, storeString, badTypeMember, firstError]

/-- What `NewGeometry` returns, by cases on the error of the decoder. -/
theorem NewGeometry_eq (b : Bytes) :
    NewGeometry b =
      match (Unmarshal jsonPeek.field { TypeName := "", raw := b } b).2 with
      | some err => (none, some err)
      | none => (some (Unmarshal jsonPeek.field { TypeName := "", raw := b } b).1, none) := by
  rfl

/-- An envelope that `NewGeometry` returns holds the input and the tag read from it. -/
theorem NewGeometry_ok {b : Bytes} {g : Option Geometry} (h : NewGeometry b = (g, none)) :
    ∃ v, parse b = some v ∧ g = some { TypeName := sniffedType v, raw := b } := by
  rw [NewGeometry_eq] at h
  cases hp : parse b with
  | none => simp [Unmarshal, hp] at h
  | some v =>
    refine ⟨v, rfl, ?_⟩
    simp only [Unmarshal, hp] at h
    cases v with
    | object ms =>
      simp only [storeStruct] at h
      split at h
      · simp at h
      · simp only [Prod.mk.injEq, and_true] at h
        rw [← h, storeMembers_peek_fst]
        simp [sniffedType]
    | null => simp [storeStruct, sniffedType] at h ⊢; exact h.symm
    | bool x => simp [storeStruct] at h
    | number x => simp [storeStruct] at h
    | string x => simp [storeStruct] at h
    | array x => simp [storeStruct] at h

/-! ## C1: a decoder refuses an envelope of another type -/

/-- C1. Each of the seven typed decoders, given a Geometry whose `Type()` is not exactly
the name of the decoder's kind, returns a nil record and a non-nil error, whatever the
raw bytes are. -/
theorem C1_decoder_refuses_other_type (geo : Geometry) :
    (geo.Type_ ≠ "Point" → ∃ err, AsPoint geo = (none, some err)) ∧
    (geo.Type_ ≠ "LineString" → ∃ err, AsLineString geo = (none, some err)) ∧
    (geo.Type_ ≠ "Polygon" → ∃ err, AsPolygon geo = (none, some err)) ∧
    (geo.Type_ ≠ "MultiPoint" → ∃ err, AsMultiPoint geo = (none, some err)) ∧
    (geo.Type_ ≠ "MultiLineString" → ∃ err, AsMultiLineString geo = (none, some err)) ∧
    (geo.Type_ ≠ "MultiPolygon" → ∃ err, AsMultiPolygon geo = (none, some err)) ∧
    (geo.Type_ ≠ "GeometryCollection" →
      ∃ err, AsGeometryCollection geo = (none, some err)) := by
  refine ⟨?_, ?_, ?_, ?_, ?_, ?_, ?_⟩ <;> intro h
  · simp [AsPoint, h]
  · simp [AsLineString, h]
  · simp [AsPolygon, h]
  · simp [AsMultiPoint, h]
  · simp [AsMultiLineString, h]
  · simp [AsMultiPolygon, h]
  · simp [AsGeometryCollection, h]

/-- C1 at an envelope of type `point` (the kind names are case-sensitive) over the bytes
of the Point fixture: all seven decoders refuse it. -/
theorem C1_decoder_refuses_other_type_witness :
    (∃ err, AsPoint { TypeName := "point", raw := pointFixture } = (none, some err)) ∧
    (∃ err, AsLineString { TypeName := "point", raw := pointFixture } = (none, some err)) ∧
    (∃ err, AsPolygon { TypeName := "point", raw := pointFixture } = (none, some err)) ∧
    (∃ err, AsMultiPoint { TypeName := "point", raw := pointFixture } = (none, some err)) ∧
    (∃ err,
      AsMultiLineString { TypeName := "point", raw := pointFixture } = (none, some err)) ∧
    (∃ err, AsMultiPolygon { TypeName := "point", raw := pointFixture } = (none, some err)) ∧
    (∃ err,
      AsGeometryCollection { TypeName := "point", raw := pointFixture } = (none, some err)) :=
  have h := C1_decoder_refuses_other_type { TypeName := "point", raw := pointFixture }
  ⟨h.1 (by decide), h.2.1 (by decide), h.2.2.1 (by decide), h.2.2.2.1 (by decide),
    h.2.2.2.2.1 (by decide), h.2.2.2.2.2.1 (by decide), h.2.2.2.2.2.2 (by decide)⟩

/-! ## C2: the envelope `NewGeometry` returns -/

/-- C2, as the code has it. For every byte sequence `b` on which `NewGeometry` succeeds,
`Raw()` of the returned Geometry is `b` itself, and its `Type()` is the string value of
the last member of the top-level object whose name is `type` up to letter case and whose
value is a string, the empty string when `b` has no such member. -/
theorem C2_envelope_of_input (b : Bytes) (g : Geometry)
    (h : NewGeometry b = (some g, none)) :
    g.Raw = b ∧ ∃ v, parse b = some v ∧ g.Type_ = sniffedType v := by
  obtain ⟨v, hv, hg⟩ := NewGeometry_ok h
  simp only [Option.some.injEq] at hg
  subst hg
  exact ⟨rfl, v, hv, rfl⟩

/-- C2 at the Point fixture of the tests: the envelope holds the fixture and the tag
`Point`. -/
theorem C2_envelope_of_input_witness :
    NewGeometry pointFixture = (some { TypeName := "Point", raw := pointFixture }, none) ∧
    (jsonPeek.Raw { TypeName := "Point", raw := pointFixture } = pointFixture ∧
      ∃ v, parse pointFixture = some v ∧
        jsonPeek.Type_ { TypeName := "Point", raw := pointFixture } = sniffedType v) :=
  ⟨by decide!, C2_envelope_of_input pointFixture _ (by decide!)⟩

/-- C2 fails as stated: on an object that declares the type `Point` and carries a later
member `TYPE`, `NewGeometry` succeeds and `Type()` is the value of `TYPE`; on an object
that declares no type, `NewGeometry` succeeds and `Type()` is the empty string. -/
theorem C2_type_is_not_the_declared_one :
    (NewGeometry shadowedType =
        (some { TypeName := "LineString", raw := shadowedType }, none) ∧
      declaredType shadowedType = some "Point") ∧
    (NewGeometry untyped = (some { TypeName := "", raw := untyped }, none) ∧
      declaredType untyped = none) := by
  decide!

/-! ## C7: the inputs `NewGeometry` refuses -/

/-- C7, as the code has it. `NewGeometry` returns an error exactly for an input that is
not a JSON text the scanner accepts (a syntax error, or arrays and objects nested deeper
than `maxNestingDepth`), or whose top-level value is neither an object nor `null`, or
whose top-level object has a member named `type` up to letter case that holds a number,
a boolean, an array or an object. So a missing type field, a `null` one, or a string
that names no geometry kind is by itself no error: an input is accepted when it reads as
an object in which every member named `type` up to letter case holds a string or
`null`. -/
theorem C7_refused_inputs (b : Bytes) :
    (NewGeometry b).2 ≠ none ↔ refused (parse b) = true := by
  rw [NewGeometry_eq]
  cases hp : parse b with
  | none => simp [Unmarshal, hp, refused]
  | some v =>
    cases v with
    | object ms =>
      have hs := storeMembers_peek_snd ms { TypeName := "", raw := b }
      simp only [Unmarshal, hp, storeStruct, refused]
      cases he : (storeMembers jsonPeek.field { TypeName := "", raw := b } ms).2 with
      | none => simp [hs.mp he]
      | some e =>
        have : ¬ (List.any ms badTypeMember = false) := fun hf => by
          rw [hs.mpr hf] at he; cases he
        simpa using this
    | null => simp [Unmarshal, hp, storeStruct, refused]
    | bool x => simp [Unmarshal, hp, storeStruct, refused]
    | number x => simp [Unmarshal, hp, storeStruct, refused]
    | string x => simp [Unmarshal, hp, storeStruct, refused]
    | array x => simp [Unmarshal, hp, storeStruct, refused]

/-- C7 fails as stated: `NewGeometry` accepts an object with no type field, an object
whose type field is `null`, and an object that declares the type `Feature`. -/
theorem C7_accepts_missing_null_and_unknown_type :
    NewGeometry untyped = (some { TypeName := "", raw := untyped }, none) ∧
    NewGeometry nullType = (some { TypeName := "", raw := nullType }, none) ∧
    NewGeometry featureType = (some { TypeName := "Feature", raw := featureType }, none) := by
  decide!

/-! ## Lemmas on `AsGeometryCollection` -/

/-- A property of the struct that every store of a member keeps holds after all members
were stored. -/
theorem storeMembers_invariant {σ : Type} (field : σ → String → JSON → σ × Option Error)
    (P : σ → Prop) (ms : List (String × JSON))
    (hf : ∀ s k v, (k, v) ∈ ms → P s → P (field s k v).1) :
    ∀ s, P s → P (storeMembers field s ms).1 := by
  induction ms with
  | nil => intro s hs; simpa [storeMembers] using hs
  | cons m rest ih =>
    obtain ⟨k, v⟩ := m
    intro s hs
    simp only [storeMembers]
    exact ih (fun s' k' v' hm hp => hf s' k' v' (List.mem_cons_of_mem _ hm) hp) _
      (hf s k v (List.mem_cons_self _ _) hs)

/-- A property of the struct that every store of a member of the input keeps holds
after `json.Unmarshal`. -/
theorem Unmarshal_invariant {σ : Type} (field : σ → String → JSON → σ × Option Error)
    (P : σ → Prop) (cur : σ) (data : Bytes) (hcur : P cur)
    (hf : ∀ ms, parse data = some (JSON.object ms) →
      ∀ s k v, (k, v) ∈ ms → P s → P (field s k v).1) :
    P (Unmarshal field cur data).1 := by
  simp only [Unmarshal]
  cases hp : parse data with
  | none => simpa using hcur
  | some v =>
    cases v with
    | object ms => exact storeMembers_invariant field P ms (hf ms hp) cur hcur
    | null => simpa [storeStruct] using hcur
    | bool x => simpa [storeStruct] using hcur
    | number x => simpa [storeStruct] using hcur
    | string x => simpa [storeStruct] using hcur
    | array x => simpa [storeStruct] using hcur

/-- The decoder stores no envelope into a slice of `Geometry`. -/
theorem storeElems_storeGeometry (es : List (Bytes × JSON)) :
    ∀ x ∈ (storeElems storeGeometry none es).1, x = none := by
  induction es with
  | nil => simp [storeElems]
  | cons e rest ih =>
    intro x hx
    simp only [storeElems, List.mem_cons] at hx
    rcases hx with hx | hx
    · rw [hx]; simp only [storeGeometry]; split <;> rfl
    · exact ih x hx

/-- After `json.Unmarshal` into a fresh `GeometryCollection`, `Geometries` holds no
envelope. -/
theorem Unmarshal_Geometries (data : Bytes) :
    ∀ x ∈ (Unmarshal GeometryCollection.field
      { Type_ := "", AnonymousGeoms := [], Geometries := [] } data).1.Geometries, x = none := by
  apply Unmarshal_invariant GeometryCollection.field (fun gc => ∀ x ∈ gc.Geometries, x = none)
  · simp
  · intro ms _ s k v _ hs
    simp only [GeometryCollection.field]
    split
    · cases v with
      | array es => exact storeElems_storeGeometry es
      | null => simp [storeSlice]
      | bool x => simpa [storeSlice] using hs
      | number x => simpa [storeSlice] using hs
      | string x => simpa [storeSlice] using hs
      | object x => simpa [storeSlice] using hs
    · split
      · exact hs
      · split <;> exact hs

/-- When `NewGeometry` returns no error it returns an envelope. -/
theorem NewGeometry_some {b : Bytes} {g : Option Geometry} (h : NewGeometry b = (g, none)) :
    ∃ p, g = some p ∧ NewGeometry b = (some p, none) := by
  obtain ⟨v, _, hg⟩ := NewGeometry_ok h
  exact ⟨_, hg, hg ▸ h⟩

/-- The loop of `AsGeometryCollection`, when it runs to its end: the slice keeps its
length and its entries below the start index, and the entry at the index of each
fragment is the envelope of that fragment. -/
theorem childGeometries_ok (frags : List Bytes) :
    ∀ (i : Nat) (geoms out : List (Option Geometry)),
      childGeometries frags i geoms = Except.ok out →
      out.length = geoms.length ∧
      (∀ k, k < i → out[k]? = geoms[k]?) ∧
      (∀ j (hj : j < frags.length), i + j < geoms.length →
        ∃ g, out[i + j]? = some (some g) ∧ NewGeometry frags[j] = (some g, none)) := by
  induction frags with
  | nil =>
    intro i geoms out h
    simp only [childGeometries, Except.ok.injEq] at h
    subst h
    simp
  | cons frag rest ih =>
    intro i geoms out h
    rcases hN : NewGeometry frag with ⟨g, _ | err⟩
    · simp only [childGeometries, hN] at h
      obtain ⟨hlen, hlow, hup⟩ := ih (i + 1) (geoms.set i g) out h
      obtain ⟨p, hp, hNp⟩ := NewGeometry_some hN
      refine ⟨by simpa using hlen, ?_, ?_⟩
      · intro k hk
        rw [hlow k (by omega), List.getElem?_set_ne (by omega)]
      · intro j hj hb
        cases j with
        | zero =>
          refine ⟨p, ?_, by simpa using hNp⟩
          rw [Nat.add_zero, hlow i (by omega), List.getElem?_set_self (by simpa using hb), hp]
        | succ j =>
          have hj' : j < rest.length := by simpa using hj
          obtain ⟨q, hq, hNq⟩ := hup j hj' (by simpa using (by omega : i + 1 + j < geoms.length))
          refine ⟨q, ?_, by simpa using hNq⟩
          rw [show i + (j + 1) = i + 1 + j by omega]
          exact hq
    · simp [childGeometries, hN] at h

/-- The loop of `AsGeometryCollection` ends with the error of the first fragment that
`NewGeometry` refuses. -/
theorem childGeometries_error (before : List Bytes) (bad : Bytes) (after : List Bytes)
    (err : Error) (hb : ∀ f ∈ before, (NewGeometry f).2 = none)
    (he : (NewGeometry bad).2 = some err) :
    ∀ (i : Nat) (geoms : List (Option Geometry)),
      childGeometries (before ++ bad :: after) i geoms = Except.error err := by
  induction before with
  | nil =>
    intro i geoms
    rcases hN : NewGeometry bad with ⟨g, _ | e⟩
    · simp [hN] at he
    · simp only [hN, Option.some.injEq] at he
      simp [childGeometries, hN, he]
  | cons f rest ih =>
    intro i geoms
    rcases hN : NewGeometry f with ⟨g, _ | e⟩
    · simp only [List.cons_append, childGeometries, hN]
      exact ih (fun f' hf' => hb f' (List.mem_cons_of_mem _ hf')) _ _
    · have := hb f (List.mem_cons_self _ _)
      simp [hN] at this

/-! ## C3: the children of a collection -/

/-- C3, as the code has it. For every GeometryCollection envelope on which
`AsGeometryCollection` returns no error, `Geometries` has exactly as many elements as
`AnonymousGeoms`, and for every index `i` the element `Geometries[i]` is the envelope
`NewGeometry` builds from the `i`-th raw fragment: its `Raw()` is `AnonymousGeoms[i]`
and its `Type()` is the tag read from that fragment (the last member named `type` up to
letter case that holds a string), so the children come out in document order. -/
theorem C3_children_in_document_order (geo : Geometry) (gc : GeometryCollection)
    (h : AsGeometryCollection geo = (some gc, none)) :
    gc.Geometries.length = gc.AnonymousGeoms.length ∧
    ∀ (i : Nat) (hi : i < gc.AnonymousGeoms.length),
      ∃ g v, gc.Geometries[i]? = some (some g) ∧
        NewGeometry gc.AnonymousGeoms[i] = (some g, none) ∧
        g.Raw = gc.AnonymousGeoms[i] ∧
        parse gc.AnonymousGeoms[i] = some v ∧ g.Type_ = sniffedType v := by
  simp only [AsGeometryCollection] at h
  split at h
  · simp at h
  · split at h
    · simp at h
    · split at h
      · simp at h
      · rename_i geoms hc
        simp only [Prod.mk.injEq, Option.some.injEq, and_true] at h
        subst h
        obtain ⟨hlen, -, hup⟩ := childGeometries_ok _ 0 _ geoms hc
        simp only [List.length_replicate] at hlen
        refine ⟨hlen, ?_⟩
        intro i hi
        obtain ⟨g, hg, hN⟩ := hup i hi (by simpa using hi)
        obtain ⟨v, hv, hgv⟩ := NewGeometry_ok hN
        simp only [Option.some.injEq] at hgv
        refine ⟨g, v, by simpa using hg, hN, ?_, hv, ?_⟩
        · rw [hgv]; rfl
        · rw [hgv]; rfl

/-- C3 at the collection fixture of the tests: two children, a Point and a LineString,
in that order. -/
theorem C3_children_in_document_order_witness :
    AsGeometryCollection { TypeName := "GeometryCollection", raw := geometryCollectionFixture }
      = (some fixtureCollection, none) ∧
    (fixtureCollection.Geometries.length = fixtureCollection.AnonymousGeoms.length ∧
      ∀ (i : Nat) (hi : i < fixtureCollection.AnonymousGeoms.length),
        ∃ g v, fixtureCollection.Geometries[i]? = some (some g) ∧
          NewGeometry fixtureCollection.AnonymousGeoms[i] = (some g, none) ∧
          g.Raw = fixtureCollection.AnonymousGeoms[i] ∧
          parse fixtureCollection.AnonymousGeoms[i] = some v ∧ g.Type_ = sniffedType v) :=
  ⟨by decide!,
    C3_children_in_document_order
      { TypeName := "GeometryCollection", raw := geometryCollectionFixture } fixtureCollection
      (by decide!)⟩

/-- C3 fails as stated: the one child of this collection declares the type `Point`, and
the envelope built from it has the type `LineString`. -/
theorem C3_child_type_is_not_the_declared_one :
    AsGeometryCollection { TypeName := "GeometryCollection", raw := shadowedChild } =
      (some { Type_ := "GeometryCollection", AnonymousGeoms := [shadowedType],
              Geometries := [some { TypeName := "LineString", raw := shadowedType }] }, none) ∧
    declaredType shadowedType = some "Point" := by
  decide!

/-! ## C4: a child that fails to decode -/

/-- C4, as the code has it. When `AsGeometryCollection` meets the first child fragment
that fails to decode, it stops and returns that error together with the
GeometryCollection as `json.Unmarshal` filled it: `AnonymousGeoms` holds all the raw
fragments, and `Geometries` holds no envelope, so none of the children decoded before
the failure is in it. -/
theorem C4_child_error_keeps_no_child (geo : Geometry) (gc : GeometryCollection)
    (before after : List Bytes) (bad : Bytes) (err : Error)
    (ht : geo.Type_ = "GeometryCollection")
    (hu : Unmarshal GeometryCollection.field
      { Type_ := "", AnonymousGeoms := [], Geometries := [] } geo.Raw = (gc, none))
    (hs : gc.AnonymousGeoms = before ++ bad :: after)
    (hb : ∀ f ∈ before, (NewGeometry f).2 = none)
    (he : (NewGeometry bad).2 = some err) :
    AsGeometryCollection geo = (some gc, some err) ∧ ∀ x ∈ gc.Geometries, x = none := by
  constructor
  · simp only [AsGeometryCollection, ht, ne_eq, not_true_eq_false, ↓reduceIte, hu, hs]
    rw [childGeometries_error before bad after err hb he]
  · have := Unmarshal_Geometries geo.Raw
    rw [hu] at this
    exact this

/-- C4 at a collection of a Point and of a child whose type is a number: the error of
the second child comes back with a collection whose `Geometries` is empty. -/
theorem C4_child_error_keeps_no_child_witness :
    AsGeometryCollection { TypeName := "GeometryCollection", raw := brokenChild } =
      (some { Type_ := "GeometryCollection", AnonymousGeoms := [goodFragment, badFragment],
              Geometries := [] }, some Error.UnmarshalTypeError) ∧
    ∀ x ∈ ([] : List (Option Geometry)), x = none :=
  C4_child_error_keeps_no_child { TypeName := "GeometryCollection", raw := brokenChild }
    { Type_ := "GeometryCollection", AnonymousGeoms := [goodFragment, badFragment],
      Geometries := [] }
    [goodFragment] [] badFragment Error.UnmarshalTypeError
    (by decide) (by decide!) (by decide) (by decide!) (by decide!)

/-- C4 fails as stated: the first child of this collection decodes, the second fails,
and the collection that comes back with the error has no child in `Geometries`, not
one. -/
theorem C4_decoded_children_are_dropped :
    NewGeometry goodFragment = (some { TypeName := "Point", raw := goodFragment }, none) ∧
    NewGeometry badFragment = (none, some Error.UnmarshalTypeError) ∧
    AsGeometryCollection { TypeName := "GeometryCollection", raw := brokenChild } =
      (some { Type_ := "GeometryCollection", AnonymousGeoms := [goodFragment, badFragment],
              Geometries := [] }, some Error.UnmarshalTypeError) := by
  decide!

/-! ## Lemmas on the conversions to S2 -/

/-- A coordinate of two or more numbers has a point, built from its first two. -/
theorem S2PointFromCoordinate_ok (coord : Coordinate) (h : 2 ≤ coord.length) :
    ∃ c0 c1, coord[0]? = some c0 ∧ coord[1]? = some c1 ∧
      S2PointFromCoordinate coord =
        Run.ret (s2.PointFromLatLng (s2.LatLngFromDegrees c0 c1)) := by
  match coord, h with
  | a :: b :: rest, _ => exact ⟨a, b, by simp, by simp, by simp [S2PointFromCoordinate, index]⟩

/-- The loop over coordinates of two or more numbers each returns one point for each
coordinate, in order. -/
theorem pointsOf_ok (cs : List Coordinate) (h : ∀ c ∈ cs, 2 ≤ c.length) :
    ∃ points, pointsOf cs = Run.ret points ∧ points.length = cs.length ∧
      ∀ (i : Nat) (hi : i < cs.length),
        ∃ p, points[i]? = some p ∧ S2PointFromCoordinate cs[i] = Run.ret p := by
  induction cs with
  | nil => exact ⟨[], rfl, rfl, fun i hi => absurd hi (by simp)⟩
  | cons c rest ih =>
    obtain ⟨c0, c1, -, -, hp⟩ := S2PointFromCoordinate_ok c (h c (List.mem_cons_self _ _))
    obtain ⟨ps, hps, hlen, hall⟩ := ih (fun x hx => h x (List.mem_cons_of_mem _ hx))
    refine ⟨s2.PointFromLatLng (s2.LatLngFromDegrees c0 c1) :: ps,
      by simp only [pointsOf, hp, hps], by simp [hlen], ?_⟩
    intro i hi
    cases i with
    | zero =>
      exact ⟨s2.PointFromLatLng (s2.LatLngFromDegrees c0 c1), by simp, by simpa using hp⟩
    | succ j =>
      obtain ⟨p, hp1, hp2⟩ := hall j (by simpa using hi)
      exact ⟨p, by simpa using hp1, by simpa using hp2⟩

/-- `AsPoint` returns a record without error only for an envelope of type `Point`. -/
theorem AsPoint_type {geo : Geometry} {pt : Point} (h : AsPoint geo = (some pt, none)) :
    geo.Type_ = "Point" := by
  by_contra hne
  simp [AsPoint, hne] at h

/-- `AsPolygon` returns a record without error only for an envelope of type `Polygon`. -/
theorem AsPolygon_type {geo : Geometry} {pg : Polygon} (h : AsPolygon geo = (some pg, none)) :
    geo.Type_ = "Polygon" := by
  by_contra hne
  simp [AsPolygon, hne] at h

/-- `AsLineString` returns a record without error only for an envelope of type
`LineString`. -/
theorem AsLineString_type {geo : Geometry} {ls : LineString}
    (h : AsLineString geo = (some ls, none)) : geo.Type_ = "LineString" := by
  by_contra hne
  simp [AsLineString, hne] at h

/-- `AsMultiPoint` returns a record without error only for an envelope of type
`MultiPoint`. -/
theorem AsMultiPoint_type {geo : Geometry} {mp : MultiPoint}
    (h : AsMultiPoint geo = (some mp, none)) : geo.Type_ = "MultiPoint" := by
  by_contra hne
  simp [AsMultiPoint, hne] at h

/-! ## C5: a Polygon of more than one ring -/

/-- C5 at a Polygon with an exterior ring and a hole: the envelope decodes to two rings,
and `AsS2Polygon` does not return an error but hands both loops to
`s2.PolygonFromLoops`, whose panic ends the program. -/
theorem C5_two_rings_reach_PolygonFromLoops :
    NewGeometry twoRings = (some { TypeName := "Polygon", raw := twoRings }, none) ∧
    (AsPolygon { TypeName := "Polygon", raw := twoRings }).2 = none ∧
    (AsPolygon { TypeName := "Polygon", raw := twoRings }).1.map
      (fun pg => pg.Coordinates.length) = some 2 ∧
    AsS2Polygon { TypeName := "Polygon", raw := twoRings } =
      Run.panic "PolygonFromLoops: more than one loop" := by
  decide!

/-! ## C6: a ring of fewer than three coordinates -/

/-- C6, as the code has it. For every Polygon envelope that decodes to one ring, however
few coordinates the ring has (each of two or more numbers), `AsS2Polygon` passes the
points of the ring to `s2.LoopFromPoints` and returns the polygon of that loop without
an error. -/
theorem C6_short_ring_is_passed_on (geo : Geometry) (pg : Polygon) (ring : List Coordinate)
    (h : AsPolygon geo = (some pg, none)) (hr : pg.Coordinates = [ring])
    (hc : ∀ c ∈ ring, 2 ≤ c.length) :
    ∃ points, pointsOf ring = Run.ret points ∧ points.length = ring.length ∧
      AsS2Polygon geo = Run.ret (some ⟨[s2.LoopFromPoints points]⟩, none) := by
  obtain ⟨points, hp, hlen, -⟩ := pointsOf_ok ring hc
  refine ⟨points, hp, hlen, ?_⟩
  simp [AsS2Polygon, AsPolygon_type h, h, hr, loopsOf, hp, s2.PolygonFromLoops]

/-- C6 at a Polygon whose one ring has two coordinates. -/
theorem C6_short_ring_is_passed_on_witness :
    ∃ points, pointsOf shortRingCoordinates = Run.ret points ∧
      points.length = shortRingCoordinates.length ∧
      AsS2Polygon { TypeName := "Polygon", raw := shortRing } =
        Run.ret (some ⟨[s2.LoopFromPoints points]⟩, none) :=
  C6_short_ring_is_passed_on { TypeName := "Polygon", raw := shortRing }
    { Type_ := "Polygon", Coordinates := [shortRingCoordinates] } shortRingCoordinates
    (by decide!) rfl (by decide)

/-- C6 fails as stated: for a Polygon whose one ring has two coordinates `AsS2Polygon`
returns no error, and the polygon it returns is built by `s2.LoopFromPoints` from the two
points of the ring. -/
theorem C6_short_ring_gives_no_error :
    NewGeometry shortRing = (some { TypeName := "Polygon", raw := shortRing }, none) ∧
    AsPolygon { TypeName := "Polygon", raw := shortRing } =
      (some { Type_ := "Polygon", Coordinates := [shortRingCoordinates] }, none) ∧
    shortRingCoordinates.length = 2 ∧
    AsS2Polygon { TypeName := "Polygon", raw := shortRing } =
      Run.ret (some ⟨[s2.LoopFromPoints
        [s2.PointFromLatLng (s2.LatLngFromDegrees ⟨false, 1000, -1⟩ ⟨false, 0, -1⟩),
         s2.PointFromLatLng (s2.LatLngFromDegrees ⟨false, 1010, -1⟩ ⟨false, 10, -1⟩)]]⟩,
        none) := by
  decide!

/-! ## C8: the points of a LineString or MultiPoint -/

/-- C8. For every LineString or MultiPoint envelope that decodes to the coordinates `cs`,
each of length at least 2, `AsS2PointSlice` returns no error and a slice of exactly as
many points, whose `i`-th element is `S2PointFromCoordinate` of the `i`-th coordinate. -/
theorem C8_points_follow_coordinates (geo : Geometry) (cs : List Coordinate)
    (hd : (∃ ls, AsLineString geo = (some ls, none) ∧ ls.Coordinates = cs) ∨
      (∃ mp, AsMultiPoint geo = (some mp, none) ∧ mp.Coordinates = cs))
    (hc : ∀ c ∈ cs, 2 ≤ c.length) :
    ∃ points, AsS2PointSlice geo = Run.ret (points, none) ∧ points.length = cs.length ∧
      ∀ (i : Nat) (hi : i < cs.length),
        ∃ p, points[i]? = some p ∧ S2PointFromCoordinate cs[i] = Run.ret p := by
  obtain ⟨points, hp, hlen, hall⟩ := pointsOf_ok cs hc
  refine ⟨points, ?_, hlen, hall⟩
  rcases hd with ⟨ls, hls, hcs⟩ | ⟨mp, hmp, hcs⟩
  · simp [AsS2PointSlice, AsLineString_type hls, hls, hcs, hp]
  · have ht := AsMultiPoint_type hmp
    have hne : ¬ geo.Type_ = "LineString" := by rw [ht]; decide
    simp [AsS2PointSlice, hne, ht, hmp, hcs, hp]

/-- C8 at the LineString fixture of the tests: four points, in the order of the four
coordinates. -/
theorem C8_points_follow_coordinates_witness :
    ∃ points, AsS2PointSlice { TypeName := "LineString", raw := linestringFixture } =
        Run.ret (points, none) ∧
      points.length = linestringCoordinates.length ∧
      ∀ (i : Nat) (hi : i < linestringCoordinates.length),
        ∃ p, points[i]? = some p ∧
          S2PointFromCoordinate linestringCoordinates[i] = Run.ret p :=
  C8_points_follow_coordinates { TypeName := "LineString", raw := linestringFixture }
    linestringCoordinates
    (Or.inl ⟨{ Type_ := "LineString", Coordinates := linestringCoordinates },
      by decide!, rfl⟩)
    (by decide)

/-! ## C9: the point of a Point -/

/-- C9. For every Point envelope on which `AsPoint` succeeds with a coordinate of length
at least 2, `AsS2Point` returns no error and the point that `S2PointFromCoordinate`
returns for that coordinate,
`PointFromLatLng(LatLngFromDegrees(c[0], c[1]))`: both pass the first element of the
coordinate as the first (latitude) argument and the second as the second (longitude). -/
theorem C9_AsS2Point_is_S2PointFromCoordinate (geo : Geometry) (pt : Point)
    (h : AsPoint geo = (some pt, none)) (hc : 2 ≤ pt.Coordinate.length) :
    ∃ c0 c1, pt.Coordinate[0]? = some c0 ∧ pt.Coordinate[1]? = some c1 ∧
      AsS2Point geo =
        Run.ret (s2.PointFromLatLng (s2.LatLngFromDegrees c0 c1), none) ∧
      S2PointFromCoordinate pt.Coordinate =
        Run.ret (s2.PointFromLatLng (s2.LatLngFromDegrees c0 c1)) := by
  obtain ⟨c0, c1, h0, h1, hp⟩ := S2PointFromCoordinate_ok pt.Coordinate hc
  refine ⟨c0, c1, h0, h1, ?_, hp⟩
  simp [AsS2Point, AsPoint_type h, h, index, h0, h1]

/-- C9 at the Point fixture of the tests. -/
theorem C9_AsS2Point_is_S2PointFromCoordinate_witness :
    ∃ c0 c1, pointCoordinate[0]? = some c0 ∧ pointCoordinate[1]? = some c1 ∧
      AsS2Point { TypeName := "Point", raw := pointFixture } =
        Run.ret (s2.PointFromLatLng (s2.LatLngFromDegrees c0 c1), none) ∧
      S2PointFromCoordinate pointCoordinate =
        Run.ret (s2.PointFromLatLng (s2.LatLngFromDegrees c0 c1)) :=
  C9_AsS2Point_is_S2PointFromCoordinate { TypeName := "Point", raw := pointFixture }
    { Type_ := "Point", Coordinate := pointCoordinate } (by decide!) (by decide)

/-! ## The reading of a text does not depend on the bound of `parseValue` -/

theorem skipSpace_length (cs : Bytes) : (skipSpace cs).length ≤ cs.length := by
  induction cs with
  | nil => simp [skipSpace]
  | cons c cs ih =>
    simp only [skipSpace]
    split
    · exact Nat.le_succ_of_le ih
    · exact Nat.le_refl _

theorem scanString_length (n : Nat) :
    ∀ (cs : Bytes) (us : List Nat) (rest : Bytes), cs.length ≤ n →
      scanString cs = some (us, rest) → rest.length < cs.length := by
  induction n with
  | zero =>
    intro cs us rest hn h
    have : cs = [] := List.length_eq_zero.mp (Nat.le_zero.mp hn)
    subst this
    simp [scanString] at h
  | succ n ih =>
    intro cs us rest hn h
    unfold scanString at h
    split at h
    · simp at h
    · rename_i c cs'
      simp only [List.length_cons] at hn ⊢
      split at h
      · simp only [Option.some.injEq, Prod.mk.injEq] at h
        obtain ⟨-, rfl⟩ := h
        omega
      · split at h
        · split at h
          · rename_i h1 h2 h3 h4 r
            split at h
            · rename_i u us' out hu hs
              simp only [Option.some.injEq, Prod.mk.injEq] at h
              obtain ⟨-, rfl⟩ := h
              have := ih r us' out (by simp only [List.length_cons] at hn; omega) hs
              simp only [List.length_cons]
              omega
            · simp at h
          · rename_i e r _
            split at h
            · rename_i x us' out hx hs
              simp only [Option.some.injEq, Prod.mk.injEq] at h
              obtain ⟨-, rfl⟩ := h
              have := ih r us' out (by simp only [List.length_cons] at hn; omega) hs
              simp only [List.length_cons]
              omega
            · simp at h
          · simp at h
        · split at h
          · simp at h
          · split at h
            · rename_i us' out hs
              simp only [Option.some.injEq, Prod.mk.injEq] at h
              obtain ⟨-, rfl⟩ := h
              have := ih cs' us' out (by omega) hs
              omega
            · simp at h

theorem spanDigits_length (cs : Bytes) :
    ∀ (acc k : Nat), (spanDigits cs acc k).2.2.length ≤ cs.length := by
  induction cs with
  | nil => intro acc k; simp [spanDigits]
  | cons c cs ih =>
    intro acc k
    simp only [spanDigits]
    split
    · exact Nat.le_succ_of_le (ih _ _)
    · exact Nat.le_refl _

theorem scanInt_length {cs : Bytes} {x : Nat} {rest : Bytes}
    (h : scanInt cs = some (x, rest)) : rest.length < cs.length := by
  unfold scanInt at h
  split at h
  · simp at h
  · rename_i c cs'
    split at h
    · simp only [Option.some.injEq, Prod.mk.injEq] at h
      obtain ⟨-, rfl⟩ := h
      simp
    · split at h
      · have hl := spanDigits_length cs' (c.toNat - 48) 1
        rcases hsd : spanDigits cs' (c.toNat - 48) 1 with ⟨a, b, r⟩
        rw [hsd] at h hl
        simp only [Option.some.injEq, Prod.mk.injEq] at h
        obtain ⟨-, rfl⟩ := h
        simp only [List.length_cons]
        exact Nat.lt_succ_of_le hl
      · simp at h

theorem scanFrac_length {int : Nat} {cs : Bytes} {a k : Nat} {rest : Bytes}
    (h : scanFrac int cs = some (a, k, rest)) : rest.length ≤ cs.length := by
  unfold scanFrac at h
  split at h
  · rename_i cs'
    have hl := spanDigits_length cs' int 0
    rcases hsd : spanDigits cs' int 0 with ⟨a', b', r'⟩
    rw [hsd] at h hl
    split at h
    · simp at h
    · rename_i heq
      simp only [Option.some.injEq, Prod.mk.injEq] at h
      simp only [Prod.mk.injEq] at heq
      obtain ⟨-, -, rfl⟩ := h
      obtain ⟨-, -, rfl⟩ := heq
      simp only [List.length_cons]
      exact Nat.le_succ_of_le hl
  · simp only [Option.some.injEq, Prod.mk.injEq] at h
    obtain ⟨-, -, rfl⟩ := h
    exact Nat.le_refl _

theorem scanExp_length {cs : Bytes} {e : Int} {rest : Bytes}
    (h : scanExp cs = some (e, rest)) : rest.length ≤ cs.length := by
  unfold scanExp at h
  split at h
  · simp only [Option.some.injEq, Prod.mk.injEq] at h
    obtain ⟨-, rfl⟩ := h
    exact Nat.le_refl _
  · rename_i c cs'
    split at h
    · split at h
      · simp at h
      · rename_i s ds
        by_cases hm : s = '-'
        · have hl := spanDigits_length ds 0 0
          rcases hsd : spanDigits ds 0 0 with ⟨a', b', r'⟩
          simp only [hm, ↓reduceIte, hsd] at h hl
          split at h
          · simp at h
          · rename_i heq
            simp only [Option.some.injEq, Prod.mk.injEq] at h
            simp only [Prod.mk.injEq] at heq
            obtain ⟨-, rfl⟩ := h
            obtain ⟨-, -, rfl⟩ := heq
            simp only [List.length_cons]
            omega
        · by_cases hp : s = '+'
          · have hl := spanDigits_length ds 0 0
            rcases hsd : spanDigits ds 0 0 with ⟨a', b', r'⟩
            simp only [hp, show ¬ (('+' : Char) = '-') by decide, ↓reduceIte, hsd] at h hl
            split at h
            · simp at h
            · rename_i heq
              simp only [Option.some.injEq, Prod.mk.injEq] at h
              simp only [Prod.mk.injEq] at heq
              obtain ⟨-, rfl⟩ := h
              obtain ⟨-, -, rfl⟩ := heq
              simp only [List.length_cons]
              omega
          · have hl := spanDigits_length (s :: ds) 0 0
            rcases hsd : spanDigits (s :: ds) 0 0 with ⟨a', b', r'⟩
            simp only [hm, hp, ↓reduceIte, hsd] at h hl
            split at h
            · simp at h
            · rename_i heq
              simp only [Option.some.injEq, Prod.mk.injEq] at h
              simp only [Prod.mk.injEq] at heq
              obtain ⟨-, rfl⟩ := h
              obtain ⟨-, -, rfl⟩ := heq
              simp only [List.length_cons] at hl ⊢
              omega
    · simp only [Option.some.injEq, Prod.mk.injEq] at h
      obtain ⟨-, rfl⟩ := h
      exact Nat.le_refl _

theorem stripWord_length (w : List Char) :
    ∀ (cs rest : Bytes), stripWord w cs = some rest → rest.length ≤ cs.length := by
  induction w with
  | nil =>
    intro cs rest h
    simp only [stripWord, Option.some.injEq] at h
    subst h
    exact Nat.le_refl _
  | cons x w ih =>
    intro cs rest h
    cases cs with
    | nil => simp [stripWord] at h
    | cons c cs =>
      simp only [stripWord] at h
      split at h
      · exact Nat.le_succ_of_le (ih cs rest h)
      · simp at h

theorem scanSign_length (input : Bytes) : (scanSign input).2.length ≤ input.length := by
  unfold scanSign
  split <;> simp

theorem scanNumber_length {input : Bytes} {x : Float64} {rest : Bytes}
    (h : scanNumber input = some (x, rest)) : rest.length < input.length := by
  unfold scanNumber at h
  have hbody := scanSign_length input
  split at h
  · simp at h
  · rename_i int r1 hi
    split at h
    · simp at h
    · rename_i digits nfrac r2 hf
      split at h
      · simp at h
      · rename_i e r3 he
        simp only [Option.some.injEq, Prod.mk.injEq] at h
        obtain ⟨-, rfl⟩ := h
        have h1 := scanInt_length hi
        have h2 := scanFrac_length hf
        have h3 := scanExp_length he
        omega

/-- Reading a value, the members of an object or the elements of an array consumes
input. -/
theorem parse_length (n : Nat) :
    ∀ (depth : Nat) (input : Bytes) (v : JSON) (rest : Bytes),
      (parseValue n depth input = some (v, rest) → rest.length < input.length) ∧
      (parseMembers n depth input = some (v, rest) → rest.length < input.length) ∧
      (parseElems n depth input = some (v, rest) → rest.length < input.length) := by
  induction n with
  | zero =>
    intro depth input v rest
    refine ⟨?_, ?_, ?_⟩ <;> intro h
    · simp [parseValue] at h
    · simp [parseMembers] at h
    · simp [parseElems] at h
  | succ n ih =>
    intro depth input v rest
    refine ⟨?_, ?_, ?_⟩ <;> intro h
    · cases input with
      | nil => simp [parseValue] at h
      | cons c cs =>
        have hsk := skipSpace_length cs
        simp only [parseValue] at h
        simp only [List.length_cons]
        split at h
        · split at h
          · simp at h
          · split at h
            · rename_i r heq
              simp only [Option.some.injEq, Prod.mk.injEq] at h
              obtain ⟨-, rfl⟩ := h
              rw [heq] at hsk
              simp only [List.length_cons] at hsk
              omega
            · have := (ih (depth + 1) (skipSpace cs) v rest).2.1 h
              omega
        · split at h
          · split at h
            · simp at h
            · split at h
              · rename_i r heq
                simp only [Option.some.injEq, Prod.mk.injEq] at h
                obtain ⟨-, rfl⟩ := h
                rw [heq] at hsk
                simp only [List.length_cons] at hsk
                omega
              · have := (ih (depth + 1) (skipSpace cs) v rest).2.2 h
                omega
          · split at h
            · split at h
              · rename_i us r hs
                simp only [Option.some.injEq, Prod.mk.injEq] at h
                obtain ⟨-, rfl⟩ := h
                have := scanString_length cs.length cs us _ (Nat.le_refl _) hs
                omega
              · simp at h
            · split at h
              · simp only [Option.map_eq_some', Prod.mk.injEq] at h
                obtain ⟨r, hr, -, rfl⟩ := h
                have := stripWord_length _ _ _ hr
                omega
              · split at h
                · simp only [Option.map_eq_some', Prod.mk.injEq] at h
                  obtain ⟨r, hr, -, rfl⟩ := h
                  have := stripWord_length _ _ _ hr
                  omega
                · split at h
                  · simp only [Option.map_eq_some', Prod.mk.injEq] at h
                    obtain ⟨r, hr, -, rfl⟩ := h
                    have := stripWord_length _ _ _ hr
                    omega
                  · split at h
                    · rename_i x r hs
                      simp only [Option.some.injEq, Prod.mk.injEq] at h
                      obtain ⟨-, rfl⟩ := h
                      have := scanNumber_length hs
                      simpa using this
                    · simp at h
    · simp only [parseMembers] at h
      split at h
      · rename_i cs
        split at h
        · simp at h
        · rename_i us r1 hs
          have h1 := scanString_length cs.length cs us r1 (Nat.le_refl _) hs
          have hsk1 := skipSpace_length r1
          split at h
          · rename_i r2 heq2
            rw [heq2] at hsk1
            have hsk2 := skipSpace_length r2
            split at h
            · simp at h
            · rename_i w r3 hv
              have h3 := (ih depth (skipSpace r2) w r3).1 hv
              have hsk3 := skipSpace_length r3
              simp only [List.length_cons] at hsk1 ⊢
              split at h
              · rename_i r heq
                simp only [Option.some.injEq, Prod.mk.injEq] at h
                obtain ⟨-, rfl⟩ := h
                rw [heq] at hsk3
                simp only [List.length_cons] at hsk3
                omega
              · rename_i r4 heq
                rw [heq] at hsk3
                simp only [List.length_cons] at hsk3
                have hsk4 := skipSpace_length r4
                split at h
                · rename_i ms r hm
                  simp only [Option.some.injEq, Prod.mk.injEq] at h
                  obtain ⟨-, rfl⟩ := h
                  have := (ih depth (skipSpace r4) (JSON.object ms) _).2.1 hm
                  omega
                · simp at h
              · simp at h
          · simp at h
      · simp at h
    · simp only [parseElems] at h
      split at h
      · simp at h
      · rename_i w r1 hv
        have h1 := (ih depth input w r1).1 hv
        have hsk1 := skipSpace_length r1
        split at h
        · rename_i r heq
          simp only [Option.some.injEq, Prod.mk.injEq] at h
          obtain ⟨-, rfl⟩ := h
          rw [heq] at hsk1
          simp only [List.length_cons] at hsk1
          omega
        · rename_i r2 heq
          rw [heq] at hsk1
          simp only [List.length_cons] at hsk1
          have hsk2 := skipSpace_length r2
          split at h
          · rename_i es r he
            simp only [Option.some.injEq, Prod.mk.injEq] at h
            obtain ⟨-, rfl⟩ := h
            have := (ih depth (skipSpace r2) (JSON.array es) _).2.2 he
            omega
          · simp at h
        · simp at h

/-- One more unit of the bound changes nothing once the bound is twice the length of the
input (plus one for a value, plus two for members or elements). -/
theorem parse_fuel_step (n : Nat) :
    ∀ (depth : Nat) (input : Bytes),
      (2 * input.length + 1 ≤ n →
        parseValue (n + 1) depth input = parseValue n depth input) ∧
      (2 * input.length + 2 ≤ n →
        parseMembers (n + 1) depth input = parseMembers n depth input) ∧
      (2 * input.length + 2 ≤ n →
        parseElems (n + 1) depth input = parseElems n depth input) := by
  induction n with
  | zero =>
    intro depth input
    refine ⟨?_, ?_, ?_⟩ <;> intro h <;> omega
  | succ m ih =>
    intro depth input
    refine ⟨?_, ?_, ?_⟩ <;> intro hn
    · cases input with
      | nil => simp [parseValue]
      | cons c cs =>
        have hsk := skipSpace_length cs
        simp only [List.length_cons] at hn
        have hM := (ih (depth + 1) (skipSpace cs)).2.1 (by omega)
        have hE := (ih (depth + 1) (skipSpace cs)).2.2 (by omega)
        simp only [parseValue]
        split
        · split
          · rfl
          · split
            · rfl
            · exact hM
        · split
          · split
            · rfl
            · split
              · rfl
              · exact hE
          · rfl
    · simp only [parseMembers]
      split
      · rename_i cs
        simp only [List.length_cons] at hn
        split
        · rfl
        · rename_i us r1 hs
          have h1 := scanString_length cs.length cs us r1 (Nat.le_refl _) hs
          have hsk1 := skipSpace_length r1
          split
          · rename_i r2 heq2
            rw [heq2] at hsk1
            simp only [List.length_cons] at hsk1
            have hsk2 := skipSpace_length r2
            rw [(ih depth (skipSpace r2)).1 (by omega)]
            split
            · rfl
            · rename_i w r3 hv
              have h3 := (parse_length m depth (skipSpace r2) w r3).1 hv
              have hsk3 := skipSpace_length r3
              split
              · rfl
              · rename_i r4 heq4
                rw [heq4] at hsk3
                simp only [List.length_cons] at hsk3
                have hsk4 := skipSpace_length r4
                rw [← (ih depth (skipSpace r4)).2.1 (by omega)]
                simp only [parseMembers]
              · rfl
          · rfl
      · rfl
    · simp only [parseElems]
      rw [(ih depth input).1 (by omega)]
      split
      · rfl
      · rename_i w r1 hv
        have h1 := (parse_length m depth input w r1).1 hv
        have hsk1 := skipSpace_length r1
        split
        · rfl
        · rename_i r2 heq2
          rw [heq2] at hsk1
          simp only [List.length_cons] at hsk1
          have hsk2 := skipSpace_length r2
          rw [← (ih depth (skipSpace r2)).2.2 (by omega)]
          simp only [parseElems]
        · rfl

/-- Any bound from twice the length of the input plus one on gives the same value. -/
theorem parseValue_fuel (depth : Nat) (input : Bytes) (k : Nat) :
    parseValue (2 * input.length + 1 + k) depth input =
      parseValue (2 * input.length + 1) depth input := by
  induction k with
  | zero => rfl
  | succ k ih =>
    rw [← ih]
    exact (parse_fuel_step (2 * input.length + 1 + k) depth input).1 (by omega)

/-- The bound that `parse` gives `parseValue` is never used up: with any larger bound
the result of reading `data` is the same. -/
theorem parse_fuel (data : Bytes) (k : Nat) :
    parseValue (2 * data.length + 1 + k) 0 (skipSpace data) =
      parseValue (2 * data.length + 1) 0 (skipSpace data) := by
  have hsk := skipSpace_length data
  have h1 := parseValue_fuel 0 (skipSpace data)
    (2 * data.length + 1 + k - (2 * (skipSpace data).length + 1))
  have h2 := parseValue_fuel 0 (skipSpace data)
    (2 * data.length + 1 - (2 * (skipSpace data).length + 1))
  rw [show 2 * (skipSpace data).length + 1 +
      (2 * data.length + 1 + k - (2 * (skipSpace data).length + 1)) =
      2 * data.length + 1 + k by omega] at h1
  rw [show 2 * (skipSpace data).length + 1 +
      (2 * data.length + 1 - (2 * (skipSpace data).length + 1)) =
      2 * data.length + 1 by omega] at h2
  rw [h1, h2]


/-! ## The nesting limit -/

/-- A value that opens arrays beyond the nesting limit is refused, whatever follows. -/
theorem parseValue_deep (k : Nat) :
    ∀ (fuel depth : Nat) (rest : Bytes), maxNestingDepth ≤ depth + k →
      parseValue fuel depth (List.replicate (k + 1) '[' ++ rest) = none := by
  induction k with
  | zero =>
    intro fuel depth rest h
    cases fuel with
    | zero => simp [parseValue]
    | succ fuel =>
      have h' : maxNestingDepth ≤ depth := by simpa using h
      simp [parseValue, List.replicate, h']
  | succ k ih =>
    intro fuel depth rest h
    cases fuel with
    | zero => simp [parseValue]
    | succ fuel =>
      by_cases hd : maxNestingDepth ≤ depth
      · simp [parseValue, List.replicate, hd]
      · have hs : skipSpace (List.replicate (k + 1) '[' ++ rest) =
            '[' :: (List.replicate k '[' ++ rest) := by
          simp [List.replicate, skipSpace, isSpace]
        have hi := ih
        cases fuel with
        | zero =>
          rw [List.replicate_succ, List.cons_append]
          simp only [parseValue, hd, hs]
          simp [parseElems]
        | succ fuel =>
          have hv := ih fuel (depth + 1) rest (by omega)
          rw [List.replicate_succ, List.cons_append]
          simp only [parseValue, hd, hs]
          simp only [List.replicate_succ, List.cons_append] at hv
          simp [parseElems, hv]

/-- An input that opens more than `maxNestingDepth` arrays is not read, so `NewGeometry`
returns a syntax error for it. -/
theorem NewGeometry_deep (n : Nat) (h : maxNestingDepth < n) (rest : Bytes) :
    NewGeometry (List.replicate n '[' ++ rest) = (none, some Error.SyntaxError) := by
  obtain ⟨k, rfl⟩ : ∃ k, n = k + 1 := ⟨n - 1, by omega⟩
  have hp : parse (List.replicate (k + 1) '[' ++ rest) = none := by
    have hs : skipSpace (List.replicate (k + 1) '[' ++ rest) =
        List.replicate (k + 1) '[' ++ rest := by
      simp [List.replicate_succ, skipSpace, isSpace]
    simp only [parse, hs]
    rw [parseValue_deep k _ 0 rest (by omega)]
  rw [NewGeometry_eq]
  simp [Unmarshal, hp]

/-! ## Lemmas on what the decoder stores into the coordinates -/

theorem firstError_none {a b : Option Error} (h : firstError a b = none) :
    a = none ∧ b = none := by
  cases a with
  | none => exact ⟨rfl, by simpa [firstError] using h⟩
  | some e => simp [firstError] at h

/-- A slice stored from an array has one element for each element of the array. -/
theorem storeElems_length {α : Type} (store : α → Bytes × JSON → α × Option Error)
    (zero : α) (es : List (Bytes × JSON)) : (storeElems store zero es).1.length = es.length := by
  induction es with
  | nil => rfl
  | cons e rest ih => simp [storeElems, ih]

/-- A slice stored from an array without error has, element for element, what the store
of the element gives. -/
theorem storeElems_reads {α : Type} (store : α → Bytes × JSON → α × Option Error)
    (zero : α) (R : JSON → α → Prop)
    (hR : ∀ e, (store zero e).2 = none → R e.2 (store zero e).1) :
    ∀ es, (storeElems store zero es).2 = none →
      List.Forall₂ (fun e x => R e.2 x) es (storeElems store zero es).1 := by
  intro es
  induction es with
  | nil => intro _; exact List.Forall₂.nil
  | cons e rest ih =>
    intro h
    simp only [storeElems] at h ⊢
    obtain ⟨h1, h2⟩ := firstError_none h
    exact List.Forall₂.cons (hR e h1) (ih h2)

/-- A slice stored without error is read from the value. -/
theorem storeSlice_reads {α : Type} (store : α → Bytes × JSON → α × Option Error)
    (zero : α) (R : JSON → α → Prop)
    (hR : ∀ e, (store zero e).2 = none → R e.2 (store zero e).1)
    (cur : List α) (v : JSON) (h : (storeSlice store zero cur v).2 = none) :
    ReadsSlice R v (storeSlice store zero cur v).1 := by
  cases v with
  | array es => exact storeElems_reads store zero R hR es h
  | null => rfl
  | bool x => simp [storeSlice] at h
  | number x => simp [storeSlice] at h
  | string x => simp [storeSlice] at h
  | object x => simp [storeSlice] at h

/-- A Coordinate stored without error has the length of the array it is stored from. -/
theorem storeCoordinate_reads (cur : Coordinate) (v : JSON)
    (h : (storeCoordinate cur v).2 = none) :
    ReadsCoordinate v (storeCoordinate cur v).1 := by
  cases v with
  | array es => exact storeElems_length _ _ es
  | null => rfl
  | bool x => simp [storeCoordinate, storeSlice] at h
  | number x => simp [storeCoordinate, storeSlice] at h
  | string x => simp [storeCoordinate, storeSlice] at h
  | object x => simp [storeCoordinate, storeSlice] at h

theorem storeCoordinates_reads (cur : List Coordinate) (v : JSON)
    (h : (storeCoordinates cur v).2 = none) :
    ReadsCoordinates v (storeCoordinates cur v).1 :=
  storeSlice_reads (elem storeCoordinate) [] ReadsCoordinate
    (fun e he => storeCoordinate_reads [] e.2 he) cur v h

theorem storeCoordinates2_reads (cur : List (List Coordinate)) (v : JSON)
    (h : (storeCoordinates2 cur v).2 = none) :
    ReadsCoordinates2 v (storeCoordinates2 cur v).1 :=
  storeSlice_reads (elem storeCoordinates) [] ReadsCoordinates
    (fun e he => storeCoordinates_reads [] e.2 he) cur v h

theorem storeCoordinates3_reads (cur : List (List (List Coordinate))) (v : JSON)
    (h : (storeCoordinates3 cur v).2 = none) :
    ReadsCoordinates3 v (storeCoordinates3 cur v).1 :=
  storeSlice_reads (elem storeCoordinates2) [] ReadsCoordinates2
    (fun e he => storeCoordinates2_reads [] e.2 he) cur v h

/-- A key that is `coordinates` up to case is not `type` up to case. -/
theorem equalFold_coordinates_not_type {k : String} (h : equalFold "coordinates" k = true) :
    equalFold "type" k = false := by
  cases ht : equalFold "type" k with
  | false => rfl
  | true =>
    simp only [equalFold, decide_eq_true_eq] at h ht
    have h1 := congrArg List.length h
    have h2 := congrArg List.length ht
    rw [h2] at h1
    exact absurd h1 (by decide)

/-- After the members of an object were stored without error, a field holds what the
last member of its name stored, and what it held before when there is no such member. -/
theorem storeMembers_last {σ τ : Type} (field : σ → String → JSON → σ × Option Error)
    (get : σ → τ) (name : String) (R : JSON → τ → Prop)
    (hmatch : ∀ s k v, equalFold name k = true → (field s k v).2 = none →
      R v (get (field s k v).1))
    (hother : ∀ s k v, equalFold name k = false → get (field s k v).1 = get s) :
    ∀ (ms : List (String × JSON)) (s : σ), (storeMembers field s ms).2 = none →
      match lastMember name ms with
      | some v => R v (get (storeMembers field s ms).1)
      | none => get (storeMembers field s ms).1 = get s := by
  intro ms
  induction ms with
  | nil => intro s _; simp [lastMember, storeMembers]
  | cons m rest ih =>
    obtain ⟨k, v⟩ := m
    intro s h
    simp only [storeMembers] at h ⊢
    obtain ⟨h1, h2⟩ := firstError_none h
    have hrest := ih (field s k v).1 h2
    simp only [lastMember]
    cases hl : lastMember name rest with
    | some w =>
      rw [hl] at hrest
      exact hrest
    | none =>
      rw [hl] at hrest
      simp only at hrest ⊢
      cases hk : equalFold name k with
      | true =>
        simp only [↓reduceIte]
        rw [hrest]
        exact hmatch s k v hk h1
      | false =>
        simp only [Bool.false_eq_true, ↓reduceIte]
        rw [hrest]
        exact hother s k v hk

/-- After `json.Unmarshal` into a fresh struct without error, its coordinates field is
read from the document. -/
theorem Unmarshal_reads {σ α : Type} (field : σ → String → JSON → σ × Option Error)
    (get : σ → List α) (R : JSON → List α → Prop) (zero : σ) (hzero : get zero = [])
    (hmatch : ∀ s k v, equalFold "coordinates" k = true → (field s k v).2 = none →
      R v (get (field s k v).1))
    (hother : ∀ s k v, equalFold "coordinates" k = false → get (field s k v).1 = get s)
    (data : Bytes) (h : (Unmarshal field zero data).2 = none) :
    ∃ doc, parse data = some doc ∧ ReadsField R doc (get (Unmarshal field zero data).1) := by
  simp only [Unmarshal] at h ⊢
  cases hp : parse data with
  | none => simp [hp] at h
  | some doc =>
    refine ⟨doc, rfl, ?_⟩
    simp only [hp] at h
    cases doc with
    | object ms =>
      have hl := storeMembers_last field get "coordinates" R hmatch hother ms zero h
      simp only [ReadsField, storeStruct]
      cases hm : lastMember "coordinates" ms with
      | some v => rw [hm] at hl; exact hl
      | none => rw [hm] at hl; simp only at hl ⊢; rw [hl, hzero]
    | null => simpa [ReadsField, storeStruct] using hzero
    | bool x => simp [storeStruct] at h
    | number x => simp [storeStruct] at h
    | string x => simp [storeStruct] at h
    | array x => simp [storeStruct] at h

/-- After `json.Unmarshal` into a fresh `Point` without error, its coordinate is read from
the document. -/
theorem Unmarshal_Point_reads (data : Bytes)
    (h : (Unmarshal Point.field { Type_ := "", Coordinate := [] } data).2 = none) :
    ∃ doc, parse data = some doc ∧ ReadsField ReadsCoordinate doc
      (Unmarshal Point.field { Type_ := "", Coordinate := [] } data).1.Coordinate := by
  refine Unmarshal_reads Point.field Point.Coordinate ReadsCoordinate _ rfl ?_ ?_ data h
  · intro s k v hk he
    simp only [Point.field, equalFold_coordinates_not_type hk, hk, Bool.false_eq_true,
      ↓reduceIte] at he ⊢
    exact storeCoordinate_reads _ _ he
  · intro s k v hk
    simp only [Point.field, hk, Bool.false_eq_true, ↓reduceIte]
    split <;> rfl

/-- After `json.Unmarshal` into a fresh `LineString` without error, its coordinates are
read from the document. -/
theorem Unmarshal_LineString_reads (data : Bytes)
    (h : (Unmarshal LineString.field { Type_ := "", Coordinates := [] } data).2 = none) :
    ∃ doc, parse data = some doc ∧ ReadsField ReadsCoordinates doc
      (Unmarshal LineString.field { Type_ := "", Coordinates := [] } data).1.Coordinates := by
  refine Unmarshal_reads LineString.field LineString.Coordinates ReadsCoordinates _ rfl
    ?_ ?_ data h
  · intro s k v hk he
    simp only [LineString.field, equalFold_coordinates_not_type hk, hk, Bool.false_eq_true,
      ↓reduceIte] at he ⊢
    exact storeCoordinates_reads _ _ he
  · intro s k v hk
    simp only [LineString.field, hk, Bool.false_eq_true, ↓reduceIte]
    split <;> rfl

/-- After `json.Unmarshal` into a fresh `Polygon` without error, its coordinates are read
from the document. -/
theorem Unmarshal_Polygon_reads (data : Bytes)
    (h : (Unmarshal Polygon.field { Type_ := "", Coordinates := [] } data).2 = none) :
    ∃ doc, parse data = some doc ∧ ReadsField ReadsCoordinates2 doc
      (Unmarshal Polygon.field { Type_ := "", Coordinates := [] } data).1.Coordinates := by
  refine Unmarshal_reads Polygon.field Polygon.Coordinates ReadsCoordinates2 _ rfl
    ?_ ?_ data h
  · intro s k v hk he
    simp only [Polygon.field, equalFold_coordinates_not_type hk, hk, Bool.false_eq_true,
      ↓reduceIte] at he ⊢
    exact storeCoordinates2_reads _ _ he
  · intro s k v hk
    simp only [Polygon.field, hk, Bool.false_eq_true, ↓reduceIte]
    split <;> rfl

/-- After `json.Unmarshal` into a fresh `MultiPoint` without error, its coordinates are
read from the document. -/
theorem Unmarshal_MultiPoint_reads (data : Bytes)
    (h : (Unmarshal MultiPoint.field { Type_ := "", Coordinates := [] } data).2 = none) :
    ∃ doc, parse data = some doc ∧ ReadsField ReadsCoordinates doc
      (Unmarshal MultiPoint.field { Type_ := "", Coordinates := [] } data).1.Coordinates := by
  refine Unmarshal_reads MultiPoint.field MultiPoint.Coordinates ReadsCoordinates _ rfl
    ?_ ?_ data h
  · intro s k v hk he
    simp only [MultiPoint.field, equalFold_coordinates_not_type hk, hk, Bool.false_eq_true,
      ↓reduceIte] at he ⊢
    exact storeCoordinates_reads _ _ he
  · intro s k v hk
    simp only [MultiPoint.field, hk, Bool.false_eq_true, ↓reduceIte]
    split <;> rfl

/-- After `json.Unmarshal` into a fresh `MultiLineString` without error, its coordinates
are read from the document. -/
theorem Unmarshal_MultiLineString_reads (data : Bytes)
    (h : (Unmarshal MultiLineString.field { Type_ := "", Coordinates := [] } data).2 = none) :
    ∃ doc, parse data = some doc ∧ ReadsField ReadsCoordinates2 doc
      (Unmarshal MultiLineString.field
        { Type_ := "", Coordinates := [] } data).1.Coordinates := by
  refine Unmarshal_reads MultiLineString.field MultiLineString.Coordinates ReadsCoordinates2
    _ rfl ?_ ?_ data h
  · intro s k v hk he
    simp only [MultiLineString.field, equalFold_coordinates_not_type hk, hk,
      Bool.false_eq_true, ↓reduceIte] at he ⊢
    exact storeCoordinates2_reads _ _ he
  · intro s k v hk
    simp only [MultiLineString.field, hk, Bool.false_eq_true, ↓reduceIte]
    split <;> rfl

/-- After `json.Unmarshal` into a fresh `MultiPolygon` without error, its coordinates are
read from the document. -/
theorem Unmarshal_MultiPolygon_reads (data : Bytes)
    (h : (Unmarshal MultiPolygon.field { Type_ := "", Coordinates := [] } data).2 = none) :
    ∃ doc, parse data = some doc ∧ ReadsField ReadsCoordinates3 doc
      (Unmarshal MultiPolygon.field { Type_ := "", Coordinates := [] } data).1.Coordinates := by
  refine Unmarshal_reads MultiPolygon.field MultiPolygon.Coordinates ReadsCoordinates3 _ rfl
    ?_ ?_ data h
  · intro s k v hk he
    simp only [MultiPolygon.field, equalFold_coordinates_not_type hk, hk, Bool.false_eq_true,
      ↓reduceIte] at he ⊢
    exact storeCoordinates3_reads _ _ he
  · intro s k v hk
    simp only [MultiPolygon.field, hk, Bool.false_eq_true, ↓reduceIte]
    split <;> rfl

/-! ## C10: the length of a decoded Coordinate -/

/-- C10, as the code has it. In a record that a typed decoder (`AsPoint`,
`AsLineString`, `AsPolygon`, `AsMultiPoint`, `AsMultiLineString`, `AsMultiPolygon`)
returns without error, the coordinates mirror the last member of the document named
`coordinates` up to letter case: at every level the slice has one element for each
element of the JSON array at that place, in order, so every Coordinate has exactly as
many elements as the JSON array it was read from, whatever that number is; a slice read
from `null`, and the field of a document without the member, is empty. The decoders set
no lower bound. The reads of elements 0 and 1 in `AsS2Point` and `S2PointFromCoordinate`
are in range when the Coordinate has length at least 2; for a Point that is when the
`coordinates` array of the document has at least 2 elements. -/
theorem C10_coordinate_length_is_the_documents (geo : Geometry) :
    (∀ pt, AsPoint geo = (some pt, none) →
      (∃ doc, parse geo.Raw = some doc ∧ ReadsField ReadsCoordinate doc pt.Coordinate) ∧
      (2 ≤ pt.Coordinate.length → ∃ p, AsS2Point geo = Run.ret (p, none))) ∧
    (∀ ls, AsLineString geo = (some ls, none) →
      ∃ doc, parse geo.Raw = some doc ∧ ReadsField ReadsCoordinates doc ls.Coordinates) ∧
    (∀ pg, AsPolygon geo = (some pg, none) →
      ∃ doc, parse geo.Raw = some doc ∧ ReadsField ReadsCoordinates2 doc pg.Coordinates) ∧
    (∀ mp, AsMultiPoint geo = (some mp, none) →
      ∃ doc, parse geo.Raw = some doc ∧ ReadsField ReadsCoordinates doc mp.Coordinates) ∧
    (∀ mls, AsMultiLineString geo = (some mls, none) →
      ∃ doc, parse geo.Raw = some doc ∧ ReadsField ReadsCoordinates2 doc mls.Coordinates) ∧
    (∀ mpg, AsMultiPolygon geo = (some mpg, none) →
      ∃ doc, parse geo.Raw = some doc ∧ ReadsField ReadsCoordinates3 doc mpg.Coordinates) ∧
    (∀ coord : Coordinate, 2 ≤ coord.length →
      ∃ p, S2PointFromCoordinate coord = Run.ret p) ∧
    (∀ pt ms es, AsPoint geo = (some pt, none) → parse geo.Raw = some (JSON.object ms) →
      lastMember "coordinates" ms = some (JSON.array es) →
      pt.Coordinate.length = es.length ∧
      (2 ≤ es.length → ∃ p, AsS2Point geo = Run.ret (p, none))) := by
  have hS2 : ∀ pt, AsPoint geo = (some pt, none) → 2 ≤ pt.Coordinate.length →
      ∃ p, AsS2Point geo = Run.ret (p, none) := by
    intro pt h hc
    obtain ⟨c0, c1, h0, h1, -⟩ := S2PointFromCoordinate_ok pt.Coordinate hc
    exact ⟨s2.PointFromLatLng (s2.LatLngFromDegrees c0 c1),
      by simp [AsS2Point, AsPoint_type h, h, index, h0, h1]⟩
  have hPt : ∀ pt, AsPoint geo = (some pt, none) →
      ∃ doc, parse geo.Raw = some doc ∧ ReadsField ReadsCoordinate doc pt.Coordinate := by
    intro pt h
    have hl := Unmarshal_Point_reads geo.Raw
    simp only [AsPoint] at h
    split at h
    · simp at h
    · simp only [Prod.mk.injEq, Option.some.injEq] at h
      rw [h.1] at hl
      exact hl h.2
  refine ⟨?_, ?_, ?_, ?_, ?_, ?_, ?_, ?_⟩
  · exact fun pt h => ⟨hPt pt h, hS2 pt h⟩
  · intro ls h
    have hl := Unmarshal_LineString_reads geo.Raw
    simp only [AsLineString] at h
    split at h
    · simp at h
    · simp only [Prod.mk.injEq, Option.some.injEq] at h
      rw [h.1] at hl
      exact hl h.2
  · intro pg h
    have hl := Unmarshal_Polygon_reads geo.Raw
    simp only [AsPolygon] at h
    split at h
    · simp at h
    · simp only [Prod.mk.injEq, Option.some.injEq] at h
      rw [h.1] at hl
      exact hl h.2
  · intro mp h
    have hl := Unmarshal_MultiPoint_reads geo.Raw
    simp only [AsMultiPoint] at h
    split at h
    · simp at h
    · simp only [Prod.mk.injEq, Option.some.injEq] at h
      rw [h.1] at hl
      exact hl h.2
  · intro mls h
    have hl := Unmarshal_MultiLineString_reads geo.Raw
    simp only [AsMultiLineString] at h
    split at h
    · simp at h
    · simp only [Prod.mk.injEq, Option.some.injEq] at h
      rw [h.1] at hl
      exact hl h.2
  · intro mpg h
    have hl := Unmarshal_MultiPolygon_reads geo.Raw
    simp only [AsMultiPolygon] at h
    split at h
    · simp at h
    · simp only [Prod.mk.injEq, Option.some.injEq] at h
      rw [h.1] at hl
      exact hl h.2
  · intro coord hc
    obtain ⟨c0, c1, -, -, hp⟩ := S2PointFromCoordinate_ok coord hc
    exact ⟨_, hp⟩
  · intro pt ms es h hp hm
    obtain ⟨doc, hdoc, hr⟩ := hPt pt h
    rw [hp] at hdoc
    simp only [Option.some.injEq] at hdoc
    subst hdoc
    simp only [ReadsField, hm, ReadsCoordinate] at hr
    exact ⟨hr, fun h2 => hS2 pt h (by omega)⟩

set_option maxRecDepth 100000 in
/-- C10 at the six fixtures of the tests, one for each decoder. -/
theorem C10_coordinate_length_is_the_documents_witness :
    ((∃ doc, parse pointFixture = some doc ∧ ReadsField ReadsCoordinate doc pointCoordinate) ∧
      ∃ p, AsS2Point { TypeName := "Point", raw := pointFixture } = Run.ret (p, none)) ∧
    (∃ doc, parse linestringFixture = some doc ∧
      ReadsField ReadsCoordinates doc linestringCoordinates) ∧
    (∃ doc, parse polygonFixture = some doc ∧
      ReadsField ReadsCoordinates2 doc polygonCoordinates) ∧
    (∃ doc, parse multipointFixture = some doc ∧
      ReadsField ReadsCoordinates doc multipointCoordinates) ∧
    (∃ doc, parse multiLineStringFixture = some doc ∧
      ReadsField ReadsCoordinates2 doc multiLineStringCoordinates) ∧
    (∃ doc, parse multiPolygonFixture = some doc ∧
      ReadsField ReadsCoordinates3 doc multiPolygonCoordinates) ∧
    (∃ p, S2PointFromCoordinate pointCoordinate = Run.ret p) ∧
    (pointCoordinate.length = pointFixtureElems.length ∧
      (2 ≤ pointFixtureElems.length →
        ∃ p, AsS2Point { TypeName := "Point", raw := pointFixture } = Run.ret (p, none))) :=
  have hPoint := (C10_coordinate_length_is_the_documents
    { TypeName := "Point", raw := pointFixture }).1
    { Type_ := "Point", Coordinate := pointCoordinate } (by decide!)
  ⟨⟨hPoint.1, hPoint.2 (by decide)⟩,
    (C10_coordinate_length_is_the_documents
      { TypeName := "LineString", raw := linestringFixture }).2.1
      { Type_ := "LineString", Coordinates := linestringCoordinates } (by decide!),
    (C10_coordinate_length_is_the_documents
      { TypeName := "Polygon", raw := polygonFixture }).2.2.1
      { Type_ := "Polygon", Coordinates := polygonCoordinates } (by decide!),
    (C10_coordinate_length_is_the_documents
      { TypeName := "MultiPoint", raw := multipointFixture }).2.2.2.1
      { Type_ := "MultiPoint", Coordinates := multipointCoordinates } (by decide!),
    (C10_coordinate_length_is_the_documents
      { TypeName := "MultiLineString", raw := multiLineStringFixture }).2.2.2.2.1
      { Type_ := "MultiLineString", Coordinates := multiLineStringCoordinates } (by decide!),
    (C10_coordinate_length_is_the_documents
      { TypeName := "MultiPolygon", raw := multiPolygonFixture }).2.2.2.2.2.1
      { Type_ := "MultiPolygon", Coordinates := multiPolygonCoordinates } (by decide!),
    (C10_coordinate_length_is_the_documents
      { TypeName := "Point", raw := pointFixture }).2.2.2.2.2.2.1 pointCoordinate (by decide),
    (C10_coordinate_length_is_the_documents
      { TypeName := "Point", raw := pointFixture }).2.2.2.2.2.2.2
      { Type_ := "Point", Coordinate := pointCoordinate } pointFixtureMembers pointFixtureElems
      (by decide!) (by rfl) (by rfl)⟩

/-- C10 fails as stated: `AsPoint` returns, without error, a Point whose Coordinate is
empty, and on that envelope the read of element 0 in `AsS2Point` is out of range; so is
the read in `S2PointFromCoordinate` on that Coordinate. -/
theorem C10_empty_coordinate_is_decoded :
    NewGeometry emptyPoint = (some { TypeName := "Point", raw := emptyPoint }, none) ∧
    AsPoint { TypeName := "Point", raw := emptyPoint } =
      (some { Type_ := "Point", Coordinate := [] }, none) ∧
    AsS2Point { TypeName := "Point", raw := emptyPoint } = Run.panic "index out of range" ∧
    S2PointFromCoordinate [] = Run.panic "index out of range" := by
  decide!

end NeoGeo
